import Mathlib

/-!
A verified model of the OBJ/MTL parser.

This file gives a shallow embedding of the OBJ-file parser (`ParseObjFile`,
`src/parsing_obj.js`) and the MTL-file parser (`ParseMaterialFile`) of the
repository, and settles the specification claims C1-C10 against it.

Modelling conventions, chosen once and used throughout:

* JavaScript strings are modelled as `List Char`.  The two entry points take a
  Lean `String` and immediately pass to its character list; every internal
  string operation (`trim`, `split('\n')`, `split(/\s+/)`, the keyword regex,
  `split('/')`, `join(" ")`) is defined here over `List Char`, following the
  ECMAScript behaviour of the corresponding operation.
* JavaScript numbers are modelled exactly by `JsNum`: `nan`, a signed
  infinity, or an exact rational.  The parsers never do arithmetic on parsed
  numbers - they only store them - so IEEE-754 rounding is unobservable and an
  exact rational carries the same information.
* A thrown runtime `TypeError` is modelled by `Option`: a handler or a whole
  parse returns `none` exactly when the JavaScript code would throw.
* The module-level mutable bindings of `parsing_obj.js` (`objPositions`,
  `objTexcoords`, `objNormals`, `objColors`, `materialLibs`, `geometries`,
  `geometry`, `groups`, `material`, `object`) are gathered into an explicit
  `ObjState` record threaded through the line handlers; `ParseObjFile` is
  modelled as a run from the initial (module-load) state, which is the state
  every claim quantifies over.
* In the source, the current geometry is pushed into `geometries` on creation
  and mutated through the shared reference until the gate drops it.  Here the
  current geometry is held separately in `ObjState.geometry` and appended to
  `ObjState.geometries` when the gate closes it; since at most one geometry is
  ever open and it is always the most recently created one, the list
  `allGeometries` (closed ++ pending) coincides with the source's array at
  every observation point.
* `console.warn` calls are recorded in a `warnings` list so that "emits a
  warning" is statable.
-/

namespace ObjMtl

/-! ## JavaScript character classes and string operations -/

/-- The ECMAScript whitespace set: the characters matched by `\s` in a regular
expression, which is also the set removed by `String.prototype.trim`
(WhiteSpace together with LineTerminator). -/

def isWsJS (c : Char) : Bool :=
  let v := c.toNat
  v == 9 || v == 10 || v == 11 || v == 12 || v == 13 || v == 32 ||
  v == 160 || v == 0x1680 || (decide (0x2000 ≤ v) && decide (v ≤ 0x200a)) ||
  v == 0x2028 || v == 0x2029 || v == 0x202f || v == 0x205f ||
  v == 0x3000 || v == 0xfeff

/-- The ECMAScript `\w` character class: `[A-Za-z0-9_]`. -/

def isWordCharJS (c : Char) : Bool :=
  let v := c.toNat
  (decide (97 ≤ v) && decide (v ≤ 122)) ||
  (decide (65 ≤ v) && decide (v ≤ 90)) ||
  (decide (48 ≤ v) && decide (v ≤ 57)) || v == 95

/-- `text.split('\n')`: split a character list at every `'\n'`, keeping empty
segments (so a trailing newline yields a trailing empty line, as in
JavaScript). -/

def splitLines : List Char → List (List Char)
  | [] => [[]]
  | c :: rest =>
    if c = '\n' then [] :: splitLines rest
    else
      match splitLines rest with
      | [] => [[c]]
      | l :: ls => (c :: l) :: ls

/-- `line.trim()`: remove ECMAScript whitespace from both ends. -/

def trimJS (l : List Char) : List Char :=
  ((l.dropWhile isWsJS).reverse.dropWhile isWsJS).reverse

/-- `line.split(/\s+/)`: split at maximal nonempty runs of whitespace.  In
JavaScript this yields exactly the nonempty chunks, plus a single empty string
at the front when the input starts with whitespace and a single empty string
at the back when it ends with whitespace; `"".split(/\s+/)` is `[""]`.  (The
parser only ever applies this to trimmed lines, where no boundary empties
arise.) -/

def jsSplitWs (l : List Char) : List (List Char) :=
  if l = [] then [[]]
  else
    (if isWsJS (l.headD 'a') then [([] : List Char)] else []) ++
      (l.splitOnP isWsJS).filter (fun t => t ≠ []) ++
      (if isWsJS (l.getLastD 'a') then [([] : List Char)] else [])

/-- `arr.join(" ")` on a list of strings. -/

def joinSpace : List (List Char) → List Char
  | [] => []
  | [t] => t
  | t :: ts => t ++ ' ' :: joinSpace ts

/-! ## JavaScript numbers, `parseInt`, `parseFloat` -/

/-- A JavaScript number as the parsers can observe it: `NaN`, a signed
infinity, or an exact rational.  The parsers only store parsed numbers and
never compute with them, so exact rationals are a faithful carrier. -/

inductive JsNum where
  | nan : JsNum
  | inf (negative : Bool) : JsNum
  | num (val : ℚ) : JsNum
deriving DecidableEq, Repr

/-- Value of a decimal digit list, most significant first. -/

def natOfDigits (l : List Char) : Nat :=
  l.foldl (fun a c => a * 10 + (c.toNat - 48)) 0

/-- Value of a single hexadecimal digit. -/

def hexVal (c : Char) : Nat :=
  let v := c.toNat
  if decide (48 ≤ v) && decide (v ≤ 57) then v - 48
  else if decide (97 ≤ v) && decide (v ≤ 102) then v - 87
  else v - 55

/-- Hexadecimal digit test. -/

def isHexDigit (c : Char) : Bool :=
  let v := c.toNat
  (decide (48 ≤ v) && decide (v ≤ 57)) ||
  (decide (97 ≤ v) && decide (v ≤ 102)) ||
  (decide (65 ≤ v) && decide (v ≤ 70))

/-- Value of a hexadecimal digit list, most significant first. -/

def natOfHexDigits (l : List Char) : Nat :=
  l.foldl (fun a c => a * 16 + hexVal c) 0

/-- `parseInt(s)` with the default radix: skip leading whitespace, an optional
sign, then either a `0x`/`0X`-prefixed hexadecimal literal or a decimal digit
run; `none` models the `NaN` result when no digit is found. -/

def jsParseInt (l : List Char) : Option Int :=
  let l := l.dropWhile isWsJS
  let sign : Int := if l.headD 'a' = '-' then -1 else 1
  let l := match l with
    | '-' :: r => r
    | '+' :: r => r
    | _ => l
  match l with
  | '0' :: x :: r =>
    if x = 'x' ∨ x = 'X' then
      let ds := r.takeWhile isHexDigit
      if ds = [] then none else some (sign * natOfHexDigits ds)
    else
      let ds := (('0' :: x :: r).takeWhile Char.isDigit)
      some (sign * natOfDigits ds)
  | _ =>
    let ds := l.takeWhile Char.isDigit
    if ds = [] then none else some (sign * natOfDigits ds)

/-- Exponent part of a `StrDecimalLiteral`: an optional sign and a digit run
after the `e`/`E`.  If no digit follows, the exponent part is not part of the
longest valid literal and contributes `0` (JavaScript: `parseFloat("1e") = 1`). -/

def jsFloatExp (l : List Char) : Int :=
  let esign : Int := if l.headD 'a' = '-' then -1 else 1
  let l := match l with
    | '-' :: r => r
    | '+' :: r => r
    | _ => l
  let ds := l.takeWhile Char.isDigit
  if ds = [] then 0 else esign * natOfDigits ds

/-- `parseFloat(s)`: skip leading whitespace and an optional sign, then parse
the longest `StrUnsignedDecimalLiteral` ( `Infinity`, or digits with an
optional fraction and exponent); `nan` when no literal is present. -/

def jsParseFloat (l : List Char) : JsNum :=
  let l := l.dropWhile isWsJS
  let neg : Bool := l.headD 'a' = '-'
  let l := match l with
    | '-' :: r => r
    | '+' :: r => r
    | _ => l
  if l.take 8 = "Infinity".data then JsNum.inf neg
  else
    let ip := l.takeWhile Char.isDigit
    let l1 := l.drop ip.length
    let fp := match l1 with
      | '.' :: r => r.takeWhile Char.isDigit
      | _ => []
    let l2 := match l1 with
      | '.' :: r => r.dropWhile Char.isDigit
      | _ => l1
    if ip = [] ∧ fp = [] then JsNum.nan
    else
      let ex : Int := match l2 with
        | 'e' :: r => jsFloatExp r
        | 'E' :: r => jsFloatExp r
        | _ => 0
      let m : Nat := natOfDigits (ip ++ fp)
      let e : Int := ex - (fp.length : Int)
      let mag : ℚ :=
        if 0 ≤ e then mkRat (m * 10 ^ e.toNat) 1 else mkRat m (10 ^ (-e).toNat)
      JsNum.num (if neg then -mag else mag)

/-! ## The OBJ parser state

`parsing_obj.js` keeps its parser state in module-level mutable bindings; they
are gathered here into one record.  `geometry` is the current (open) geometry:
the source pushes it into `geometries` at creation and keeps mutating it
through the shared reference until `newGeometry` drops it, whereas this model
keeps it in the separate `geometry` field and appends it to `geometries` when
the gate closes it.  Since at most one geometry is open at a time and it is
always the most recently created one, `allGeometries` below reproduces the
source's `geometries` array exactly. -/

structure GeomData where
  position : List JsNum
  texcoord : List JsNum
  normal   : List JsNum
  color    : List JsNum
deriving DecidableEq, Repr

structure Geometry where
  object   : Option (List Char)
  groups   : List (List Char)
  material : Option (List Char)
  data     : GeomData
deriving DecidableEq, Repr

structure ObjState where
  objPositions : List (List JsNum)
  objTexcoords : List (List JsNum)
  objNormals   : List (List JsNum)
  objColors    : List (List JsNum)
  materialLibs : List (List Char)
  geometries   : List Geometry
  geometry     : Option Geometry
  groups       : List (List Char)
  material     : Option (List Char)
  object       : Option (List Char)
  warnings     : List (List Char)
deriving DecidableEq, Repr

/-- The zero sentinel tuples with which the four attribute tables start
(`[[0, 0, 0]]`, `[[0, 0]]`, `[[0, 0, 0]]`, `[[0, 0, 0]]` in the source). -/

def zero3 : List JsNum := [JsNum.num 0, JsNum.num 0, JsNum.num 0]

def zero2 : List JsNum := [JsNum.num 0, JsNum.num 0]

/-- The module state right after loading `parsing_obj.js`. -/

def initObjState : ObjState where
  objPositions := [zero3]
  objTexcoords := [zero2]
  objNormals   := [zero3]
  objColors    := [zero3]
  materialLibs := []
  geometries   := []
  geometry     := none
  groups       := ["default".data]
  material     := some "default".data
  object       := some "default".data
  warnings     := []

/-- `objVertexData[i]`: the attribute table addressed by sub-index slot `i` of
a face vertex reference (`i > 3` is `undefined` in the source and never looked
up by the model). -/

def vertexTable (st : ObjState) : Nat → List (List JsNum)
  | 0 => st.objPositions
  | 1 => st.objTexcoords
  | 2 => st.objNormals
  | 3 => st.objColors
  | _ => []

/-- The source's `geometries` array: geometries already closed by the gate,
followed by the still-open one if any. -/

def allGeometries (st : ObjState) : List Geometry :=
  st.geometries ++ st.geometry.toList

/-- `geometry.data.<slot>.push(...tup)`: append the components of a
dereferenced tuple to output array `slot` (0 position, 1 texcoord, 2 normal,
3 color) of a geometry. -/

def pushData (g : Geometry) (slot : Nat) (tup : List JsNum) : Geometry :=
  match slot with
  | 0 => { g with data := { g.data with position := g.data.position ++ tup } }
  | 1 => { g with data := { g.data with texcoord := g.data.texcoord ++ tup } }
  | 2 => { g with data := { g.data with normal := g.data.normal ++ tup } }
  | _ => { g with data := { g.data with color := g.data.color ++ tup } }

/-- Append to an output array of the current geometry; `none` models the
`TypeError` thrown when `geometry` is `undefined`. -/

def pushTup (st : ObjState) (slot : Nat) (tup : List JsNum) : Option ObjState :=
  match st.geometry with
  | none => none
  | some g => some { st with geometry := some (pushData g slot tup) }

/-- `list[n]` for a JavaScript (possibly negative, already resolved) index:
`undefined` (here `none`) outside `[0, length)`. -/

def listGetInt (l : List α) (n : Int) : Option α :=
  if 0 ≤ n then l[n.toNat]? else none

/-- The body of the `ptn.forEach((objIndexStr, i) => ...)` callback in
`addVertex`, for slot `i` and sub-index string `s`:

* an empty sub-index string is skipped;
* `parseInt` yielding `NaN` throws (for `i ≤ 3` the table is indexed with
  `NaN`, giving `undefined`, and spreading `undefined` throws; for `i > 3`
  evaluating `objVertexData[i].length` in the ternary throws);
* otherwise `index = objIndex + (objIndex >= 0 ? 0 : objVertexData[i].length)`
  resolves the possibly negative index against the table's *current* length,
  the tuple at `index` is spread into the output array of slot `i`
  (`undefined`, i.e. out of range, throws), and - only for `i = 0`, when the
  color table holds more than its sentinel - the color tuple at the *same*
  `index` is additionally spread into the color output;
* for `i > 3` with a nonnegative index nothing at all happens (no push, no
  throw), since `objVertexData[i]` is only dereferenced in the four
  `if`-branches and in the negative arm of the ternary. -/

def addVertexSub (st : ObjState) (i : Nat) (s : List Char) : Option ObjState :=
  if s = [] then some st
  else
    match jsParseInt s with
    | none => none
    | some objIndex =>
      if i ≤ 3 then
        let index : Int :=
          objIndex + (if 0 ≤ objIndex then 0 else ((vertexTable st i).length : Int))
        match listGetInt (vertexTable st i) index with
        | none => none
        | some tup =>
          match pushTup st i tup with
          | none => none
          | some st1 =>
            if i = 0 ∧ 1 < st.objColors.length then
              match listGetInt st.objColors index with
              | none => none
              | some ctup => pushTup st1 3 ctup
            else some st1
      else
        if 0 ≤ objIndex then some st else none

/-- Sequential processing of the enumerated sub-index strings of one vertex
reference; a throw aborts the rest. -/

def addVertexSubs : ObjState → List (Nat × List Char) → Option ObjState
  | st, [] => some st
  | st, (i, s) :: rest =>
    match addVertexSub st i s with
    | none => none
    | some st' => addVertexSubs st' rest

/-- `addVertex(vert)`: split the vertex reference on `/` and process each
sub-index with its slot number. -/

def addVertex (st : ObjState) (vert : List Char) : Option ObjState :=
  addVertexSubs st (vert.splitOn '/').enum

/-- `setGeometry()`: create the current geometry from the current
object/groups/material cursors if none is open. -/

def setGeometry (st : ObjState) : ObjState :=
  match st.geometry with
  | some _ => st
  | none =>
    { st with
      geometry := some
        { object := st.object, groups := st.groups, material := st.material,
          data := ⟨[], [], [], []⟩ } }

/-- `newGeometry()`: the state-change gate.  It closes (drops the reference
to) the current geometry only when that geometry already holds at least one
emitted position component (`geometry.data.position.length` is truthy). -/

def newGeometry (st : ObjState) : ObjState :=
  match st.geometry with
  | none => st
  | some g =>
    if g.data.position ≠ [] then
      { st with geometry := none, geometries := st.geometries ++ [g] }
    else st

/-- The `for (let tri = 0; tri < numTriangles; ++tri)` loop of the `f`
handler, with the loop counters given as a list. -/

def faceTris (value : List (List Char)) : ObjState → List Nat → Option ObjState
  | st, [] => some st
  | st, tri :: rest =>
    match addVertex st (value.getD 0 []) with
    | none => none
    | some st1 =>
      match addVertex st1 (value.getD (tri + 1) []) with
      | none => none
      | some st2 =>
        match addVertex st2 (value.getD (tri + 2) []) with
        | none => none
        | some st3 => faceTris value st3 rest

/-- The `f` keyword handler: ensure a current geometry, then emit
`value.length - 2` fan triangles (the loop body indices are always in range,
so the `getD` defaults inside `faceTris` are never reached). -/

def processFace (st : ObjState) (value : List (List Char)) : Option ObjState :=
  faceTris value (setGeometry st) (List.range (value.length - 2))

/-- The `v` keyword handler: with more than 3 tokens the first 3 go to the
position table and the rest to the color table; otherwise all tokens go to
the position table only. -/

def handleV (st : ObjState) (value : List (List Char)) : ObjState :=
  if 3 < value.length then
    { st with
      objPositions := st.objPositions ++ [(value.take 3).map jsParseFloat],
      objColors := st.objColors ++ [(value.drop 3).map jsParseFloat] }
  else
    { st with objPositions := st.objPositions ++ [value.map jsParseFloat] }

/-- The `vn` keyword handler. -/

def handleVn (st : ObjState) (value : List (List Char)) : ObjState :=
  { st with objNormals := st.objNormals ++ [value.map jsParseFloat] }

/-- The `vt` keyword handler. -/

def handleVt (st : ObjState) (value : List (List Char)) : ObjState :=
  { st with objTexcoords := st.objTexcoords ++ [value.map jsParseFloat] }

/-- The `mtllib` keyword handler stores the raw argument string. -/

def handleMtllib (st : ObjState) (rawArgs : List Char) : ObjState :=
  { st with materialLibs := st.materialLibs ++ [rawArgs] }

/-- The `usemtl` keyword handler: set the material cursor to the first token
(`undefined`, i.e. `none`, when there is none) and run the gate. -/

def handleUsemtl (st : ObjState) (value : List (List Char)) : ObjState :=
  newGeometry { st with material := value.head? }

/-- The `g` keyword handler: set the group cursor to the whole token list and
run the gate. -/

def handleG (st : ObjState) (value : List (List Char)) : ObjState :=
  newGeometry { st with groups := value }

/-- The `o` keyword handler: set the object cursor to the first token and run
the gate. -/

def handleO (st : ObjState) (value : List (List Char)) : ObjState :=
  newGeometry { st with object := value.head? }

/-! ## Keyword dispatch

The source dispatches with `const handler = keywords[keyword]` on a plain
object literal and only skips the line (with a warning) when `!handler`.
Property lookup on an object literal also finds the members inherited from
`Object.prototype`, so a handful of keyword spellings are *not* caught by the
`!handler` test.  Both files are strict-mode scripts and the handler is
invoked detached (`handler(value, RawArguments)`), so the call's `this` is
`undefined`.  Of the inherited members, only two return normally on that
`this`: `constructor` (the `Object` function, which just converts its
argument) and `toString` (which returns `"[object Undefined]"` for an
`undefined` receiver).  Every other inherited function begins with
`ToObject(this value)` - or, for `toLocaleString`, invokes `toString` on the
`this` value - and with `this = undefined` throws
`TypeError: Cannot convert undefined or null to object`
(for `isPrototypeOf` this is reached because the argument, the token array,
is an object).  `__proto__` is an accessor whose read yields
`Object.prototype` itself: truthy but not callable, so the call throws. -/

/-- Own properties of the `keywords` object of `ParseObjFile`. -/

def objKeywords : List (List Char) :=
  ["v", "vn", "vt", "f", "s", "mtllib", "usemtl", "g", "o"].map String.data

/-- The two members inherited from `Object.prototype` whose detached call
with `this = undefined` returns normally: the line is silently skipped, with
no warning and no state change. -/

def protoSkipNames : List (List Char) :=
  ["constructor", "toString"].map String.data

/-- Members inherited from `Object.prototype` for which the detached
`handler(value, RawArguments)` call throws a `TypeError`: the `__proto__`
accessor result is not callable, and the remaining built-ins reject their
`undefined` `this` (via `ToObject`, or via `toString` for
`toLocaleString`). -/

def protoThrowNames : List (List Char) :=
  ["__proto__", "__defineGetter__", "__defineSetter__", "hasOwnProperty",
   "isPrototypeOf", "propertyIsEnumerable", "toLocaleString", "valueOf",
   "__lookupGetter__", "__lookupSetter__"].map String.data

/-- One iteration of the `text.split('\n').forEach(line => ...)` loop of
`ParseObjFile`: trim the line, skip blanks and comments, split the keyword
off with the regex `/(\w*)(?: )*(.*)/` (the keyword is the maximal leading
run of word characters; `RawArguments` is the rest after the literal spaces
following it), tokenize with `line.split(/\s+/).slice(1)`, and dispatch. -/

def processObjLine (st : ObjState) (rawLine : List Char) : Option ObjState :=
  let line := trimJS rawLine
  if line = [] then some st
  else if line.headD 'a' = '#' then some st
  else
    let kw := line.takeWhile isWordCharJS
    let rawArgs := (line.drop kw.length).dropWhile (· = ' ')
    let value := (jsSplitWs line).drop 1
    if kw = "v".data then some (handleV st value)
    else if kw = "vn".data then some (handleVn st value)
    else if kw = "vt".data then some (handleVt st value)
    else if kw = "f".data then processFace st value
    else if kw = "s".data then some st
    else if kw = "mtllib".data then some (handleMtllib st rawArgs)
    else if kw = "usemtl".data then some (handleUsemtl st value)
    else if kw = "g".data then some (handleG st value)
    else if kw = "o".data then some (handleO st value)
    else if kw ∈ protoSkipNames then some st
    else if kw ∈ protoThrowNames then none
    else some { st with warnings := st.warnings ++ [kw] }

/-- Run the line loop; a thrown `TypeError` propagates out of the parse. -/

def runObjLines : ObjState → List (List Char) → Option ObjState
  | st, [] => some st
  | st, l :: rest =>
    match processObjLine st l with
    | none => none
    | some st' => runObjLines st' rest

/-! ## The returned value -/

/-- A geometry's `data` after the post-parse cleanup: an attribute key that
ended up with an empty array is deleted, which `Option` renders as `none`. -/

structure FinalData where
  position : Option (List JsNum)
  texcoord : Option (List JsNum)
  normal   : Option (List JsNum)
  color    : Option (List JsNum)
deriving DecidableEq, Repr

structure FinalGeometry where
  object   : Option (List Char)
  groups   : List (List Char)
  material : Option (List Char)
  data     : FinalData
deriving DecidableEq, Repr

structure ObjResult where
  geometries   : List FinalGeometry
  materialLibs : List (List Char)
deriving DecidableEq, Repr

/-- `if (geometry.data[key].length === 0) delete geometry.data[key]`. -/

def pruneArr (l : List JsNum) : Option (List JsNum) :=
  if l = [] then none else some l

def finalizeGeometry (g : Geometry) : FinalGeometry :=
  { object := g.object, groups := g.groups, material := g.material,
    data :=
      { position := pruneArr g.data.position,
        texcoord := pruneArr g.data.texcoord,
        normal := pruneArr g.data.normal,
        color := pruneArr g.data.color } }

/-- `ParseObjFile(text)`: run the line loop from the module-load state, prune
empty attribute arrays, and return the geometry list and material library
list; `none` models an escaping `TypeError`. -/

def ParseObjFile (text : String) : Option ObjResult :=
  match runObjLines initObjState (splitLines text.data) with
  | none => none
  | some st =>
    some
      { geometries := (allGeometries st).map finalizeGeometry,
        materialLibs := st.materialLibs }

/-! ## The MTL parser -/

/-- One material record: created empty by `newmtl` and mutated by the
property handlers.  `none` is an absent key.  `illum` stores the result of
`parseInt` (which can itself be `NaN`, hence the nested `Option`). -/

structure Material where
  shininess   : Option JsNum          := none
  ambient     : Option (List JsNum)   := none
  diffuse     : Option (List JsNum)   := none
  specular    : Option (List JsNum)   := none
  emissive    : Option (List JsNum)   := none
  diffuseMap  : Option (List Char)    := none
  specularMap : Option (List Char)    := none
  IOR         : Option JsNum          := none
  opacity     : Option JsNum          := none
  illum       : Option (Option Int)   := none
deriving DecidableEq, Repr

/-- The local state of one `ParseMaterialFile` call: the (insertion-ordered)
`materials` object and the `index` cursor (`none` = the `let index;` binding
is still `undefined`). -/

structure MtlState where
  materials : List (List Char × Material)
  index     : Option (List Char)
  warnings  : List (List Char)
deriving DecidableEq, Repr

def initMtlState : MtlState := { materials := [], index := none, warnings := [] }

/-- The property key `materials[index]` actually uses: JavaScript coerces an
`undefined` computed key to the string `"undefined"`. -/

def matKey : Option (List Char) → List Char
  | none => "undefined".data
  | some k => k

/-- Read `materials[k]` (own properties only; `Object.prototype` has no
member named like any key the parser can produce from `matKey`). -/

def lookupMat : List (List Char × Material) → List Char → Option Material
  | [], _ => none
  | (k', m) :: rest, k => if k' = k then some m else lookupMat rest k

/-- Write `materials[k] = m`: overwrite in place when the key exists (its
position in the key order is kept), append otherwise. -/

def setMat : List (List Char × Material) → List Char → Material → List (List Char × Material)
  | [], k, m => [(k, m)]
  | (k', m') :: rest, k, m =>
    if k' = k then (k, m) :: rest else (k', m') :: setMat rest k m

/-- `materials[index].<prop> = v`: dereference the current record and mutate
it; `none` models the `TypeError` thrown when `materials[index]` is
`undefined` (no record under the current key). -/

def propUpdate (st : MtlState) (f : Material → Material) : Option MtlState :=
  match lookupMat st.materials (matKey st.index) with
  | none => none
  | some m =>
    some { st with materials := setMat st.materials (matKey st.index) (f m) }

/-- `newmtl`: set the cursor to the first token and open a fresh record under
it. -/

def handleNewmtl (st : MtlState) (value : List (List Char)) : MtlState :=
  { st with
    index := value.head?,
    materials := setMat st.materials (matKey value.head?) {} }

/-- The first token of a property line as `parseFloat` receives it: a missing
token is `undefined`, which `parseFloat` stringifies to `"undefined"`; both
that and the empty default below parse to `NaN`. -/

def firstTok (value : List (List Char)) : List Char := value.headD []

def handleNs (st : MtlState) (value : List (List Char)) : Option MtlState :=
  propUpdate st fun m => { m with shininess := some (jsParseFloat (firstTok value)) }

def handleKa (st : MtlState) (value : List (List Char)) : Option MtlState :=
  propUpdate st fun m => { m with ambient := some (value.map jsParseFloat) }

def handleKd (st : MtlState) (value : List (List Char)) : Option MtlState :=
  propUpdate st fun m => { m with diffuse := some (value.map jsParseFloat) }

def handleKs (st : MtlState) (value : List (List Char)) : Option MtlState :=
  propUpdate st fun m => { m with specular := some (value.map jsParseFloat) }

def handleKe (st : MtlState) (value : List (List Char)) : Option MtlState :=
  propUpdate st fun m => { m with emissive := some (value.map jsParseFloat) }

/-- `map_Kd`: `materials[index].diffuseMap = value.join(" ")` - every token
after the keyword, joined back with single spaces, stored verbatim as the
texture path; no option flag is interpreted. -/

def handleMapKd (st : MtlState) (value : List (List Char)) : Option MtlState :=
  propUpdate st fun m => { m with diffuseMap := some (joinSpace value) }

/-- `map_Ns`: like `map_Kd`, into `specularMap`. -/

def handleMapNs (st : MtlState) (value : List (List Char)) : Option MtlState :=
  propUpdate st fun m => { m with specularMap := some (joinSpace value) }

def handleNi (st : MtlState) (value : List (List Char)) : Option MtlState :=
  propUpdate st fun m => { m with IOR := some (jsParseFloat (firstTok value)) }

def handleD (st : MtlState) (value : List (List Char)) : Option MtlState :=
  propUpdate st fun m => { m with opacity := some (jsParseFloat (firstTok value)) }

def handleIllum (st : MtlState) (value : List (List Char)) : Option MtlState :=
  propUpdate st fun m => { m with illum := some (jsParseInt (firstTok value)) }

/-- The MTL property keywords (every own key of the `keywords` object of
`ParseMaterialFile` except `newmtl`). -/

def mtlPropKeywords : List (List Char) :=
  ["Ns", "Ka", "Kd", "Ks", "Ke", "map_Kd", "map_Ns", "Ni", "d", "illum"].map String.data

/-- One iteration of the line loop of `ParseMaterialFile`: same line shape,
regex, tokenization and dispatch model (including the `Object.prototype`
fallout) as `processObjLine`. -/

def processMtlLine (st : MtlState) (rawLine : List Char) : Option MtlState :=
  let line := trimJS rawLine
  if line = [] then some st
  else if line.headD 'a' = '#' then some st
  else
    let kw := line.takeWhile isWordCharJS
    let value := (jsSplitWs line).drop 1
    if kw = "newmtl".data then some (handleNewmtl st value)
    else if kw = "Ns".data then handleNs st value
    else if kw = "Ka".data then handleKa st value
    else if kw = "Kd".data then handleKd st value
    else if kw = "Ks".data then handleKs st value
    else if kw = "Ke".data then handleKe st value
    else if kw = "map_Kd".data then handleMapKd st value
    else if kw = "map_Ns".data then handleMapNs st value
    else if kw = "Ni".data then handleNi st value
    else if kw = "d".data then handleD st value
    else if kw = "illum".data then handleIllum st value
    else if kw ∈ protoSkipNames then some st
    else if kw ∈ protoThrowNames then none
    else some { st with warnings := st.warnings ++ [kw] }

/-- Run the MTL line loop. -/

def runMtlLines : MtlState → List (List Char) → Option MtlState
  | st, [] => some st
  | st, l :: rest =>
    match processMtlLine st l with
    | none => none
    | some st' => runMtlLines st' rest

/-- `ParseMaterialFile(text)`: run the line loop on a fresh local state and
return the `materials` object (as its insertion-ordered key/record list);
`none` models an escaping `TypeError`. -/

def ParseMaterialFile (text : String) : Option (List (List Char × Material)) :=
  (runMtlLines initMtlState (splitLines text.data)).map MtlState.materials

/-! ## Helper notions for the statements and proofs -/

/-- Output array `i` (same slot numbering as `objVertexData`) of a geometry's
data. -/

def dataSlot (d : GeomData) : Nat → List JsNum
  | 0 => d.position
  | 1 => d.texcoord
  | 2 => d.normal
  | _ => d.color

/-- Output array `i` of the current (open) geometry, `[]` when none is open. -/

def currentOutput (st : ObjState) (i : Nat) : List JsNum :=
  match st.geometry with
  | none => []
  | some g => dataSlot g.data i

/-- The sentinel zero tuple occupying index 0 of table `i`. -/

def sentinelTup (i : Nat) : List JsNum :=
  if i = 1 then zero2 else zero3

/-- The width (components per entry) that table and output array `i` are
supposed to have. -/

def tupWidth (i : Nat) : Nat :=
  if i = 1 then 2 else 3

/-- The keyword the dispatch extracts from a line (maximal leading run of
word characters of the trimmed line). -/

def lineKeyword (rawLine : List Char) : List Char :=
  (trimJS rawLine).takeWhile isWordCharJS

/-- A line the loop skips before dispatch: blank after trimming, or a
comment. -/

def isSkippedLine (rawLine : List Char) : Bool :=
  decide (trimJS rawLine = []) || decide ((trimJS rawLine).headD 'a' = '#')

/-- A dispatched MTL line whose keyword is one of the ten property keywords. -/

def isMtlPropLine (rawLine : List Char) : Bool :=
  !isSkippedLine rawLine && decide (lineKeyword rawLine ∈ mtlPropKeywords)

/-- A dispatched MTL line whose keyword is `newmtl`. -/

def isMtlNewmtlLine (rawLine : List Char) : Bool :=
  !isSkippedLine rawLine && decide (lineKeyword rawLine = "newmtl".data)

/-- Attribute-line well-formedness, the hypothesis the amended C6 needs: a
`v` line carries exactly 3 tokens (position only) or exactly 6 (position and
a 3-component color), a `vn` line exactly 3, a `vt` line exactly 2.  All
other lines are unconstrained. -/

def objLineWF (rawLine : List Char) : Bool :=
  let line := trimJS rawLine
  if line = [] then true
  else if line.headD 'a' = '#' then true
  else
    let kw := line.takeWhile isWordCharJS
    let value := (jsSplitWs line).drop 1
    if kw = "v".data then value.length == 3 || value.length == 6
    else if kw = "vn".data then value.length == 3
    else if kw = "vt".data then value.length == 2
    else true

/-- All four attribute tables hold only fixed-width tuples. -/

def tablesWF (st : ObjState) : Prop :=
  (∀ t ∈ st.objPositions, t.length = 3) ∧
  (∀ t ∈ st.objTexcoords, t.length = 2) ∧
  (∀ t ∈ st.objNormals, t.length = 3) ∧
  (∀ t ∈ st.objColors, t.length = 3)

/-- A geometry's output arrays are whole numbers of fixed-width vertices. -/

def dataWF (d : GeomData) : Prop :=
  d.position.length % 3 = 0 ∧ d.texcoord.length % 2 = 0 ∧
  d.normal.length % 3 = 0 ∧ d.color.length % 3 = 0

/-- The full C6 invariant. -/

def stateWF (st : ObjState) : Prop :=
  tablesWF st ∧ ∀ g ∈ allGeometries st, dataWF g.data

/-- All own keys of the `keywords` object of `ParseMaterialFile`. -/

def mtlKeywords : List (List Char) := "newmtl".data :: mtlPropKeywords

/-- Fan triangulation, defined from the specification's words ("for N vertex
references v0..v(N-1), emit triangles (v0,v1,v2), (v0,v2,v3), ...,
(v0,v(N-2),v(N-1))"): triangle `k` is `(v0, v(k+1), v(k+2))`.  This is the
spec-side description that the source-derived `processFace` is proved to
refine. -/

def fanTriangles (value : List (List Char)) : List (List Char × List Char × List Char) :=
  (List.range (value.length - 2)).map fun k =>
    (value.getD 0 [], value.getD (k + 1) [], value.getD (k + 2) [])

/-- Emit one triangle: its three vertex references through `addVertex`, in
order. -/

def emitTriangle (st : ObjState) (t : List Char × List Char × List Char) :
    Option ObjState :=
  match addVertex st t.1 with
  | none => none
  | some st1 =>
    match addVertex st1 t.2.1 with
    | none => none
    | some st2 => addVertex st2 t.2.2

/-- Emit a list of triangles in order. -/

def emitTriangles : ObjState → List (List Char × List Char × List Char) → Option ObjState
  | st, [] => some st
  | st, t :: rest =>
    match emitTriangle st t with
    | none => none
    | some st' => emitTriangles st' rest

/-- A concrete state for exercising C1: two positions `[1,2,3]` and `[7,8,9]`
declared after the sentinel, an open (still empty) geometry, and a color
table still at its sentinel. -/

def c1State : ObjState :=
  { initObjState with
    objPositions :=
      [zero3, [JsNum.num 1, JsNum.num 2, JsNum.num 3],
        [JsNum.num 7, JsNum.num 8, JsNum.num 9]],
    geometry := some
      { object := some "default".data, groups := ["default".data],
        material := some "default".data, data := ⟨[], [], [], []⟩ } }

/-- A geometry with one emitted position tuple, for exercising the closing
arm of the gate. -/

def c3Geom : Geometry :=
  { object := some "default".data, groups := ["default".data],
    material := some "default".data, data := ⟨zero3, [], [], []⟩ }

def c3State : ObjState := { c1State with geometry := some c3Geom }

/-- The single geometry produced by the spec's end-to-end example
`v 0 0 0 / v 1 0 0 / v 0 1 0 / f 1 2 3`. -/

def c5Geometry : FinalGeometry :=
  { object := some "default".data, groups := ["default".data],
    material := some "default".data,
    data :=
      { position := some
          [JsNum.num 0, JsNum.num 0, JsNum.num 0,
           JsNum.num 1, JsNum.num 0, JsNum.num 0,
           JsNum.num 0, JsNum.num 1, JsNum.num 0],
        texcoord := none, normal := none, color := none } }

/-- The geometry produced by the well-formed witness text of C6. -/

def c6Geometry : FinalGeometry :=
  { object := some "default".data, groups := ["default".data],
    material := some "default".data,
    data :=
      { position := some [JsNum.num 1, JsNum.num 2, JsNum.num 3, JsNum.num 1, JsNum.num 2, JsNum.num 3, JsNum.num 1, JsNum.num 2, JsNum.num 3],
        texcoord := some [JsNum.num 0, JsNum.num 1, JsNum.num 0, JsNum.num 1, JsNum.num 0, JsNum.num 1],
        normal := some [JsNum.num 0, JsNum.num 0, JsNum.num 1, JsNum.num 0, JsNum.num 0, JsNum.num 1, JsNum.num 0, JsNum.num 0, JsNum.num 1],
        color := some [JsNum.num 4, JsNum.num 5, JsNum.num 6, JsNum.num 4, JsNum.num 5, JsNum.num 6, JsNum.num 4, JsNum.num 5, JsNum.num 6] } }

def c7Mat : Material := {}

def c7State : MtlState :=
  { materials := [("m".data, c7Mat)], index := some "m".data, warnings := [] }

def c7Value : List (List Char) := ["-o", "1", "1", "tex", "file.png"].map String.data

/-- The single geometry returned by parsing `f 0 0 0`: three sentinel zero
position tuples, everything else absent. -/

def c10Geometry : FinalGeometry :=
  { object := some "default".data, groups := ["default".data],
    material := some "default".data,
    data := { position := some [JsNum.num 0, JsNum.num 0, JsNum.num 0, JsNum.num 0, JsNum.num 0, JsNum.num 0, JsNum.num 0, JsNum.num 0, JsNum.num 0], texcoord := none, normal := none, color := none } }

/-- A state whose color table outgrew its sentinel while the position table
is longer: position index 2 is valid but has no color entry. -/

def c10State : ObjState := { c1State with objColors := [zero3, zero3] }

instance : DecidablePred dataWF := fun d => by
  unfold dataWF
  infer_instance

instance : DecidablePred stateWF := fun st => by
  unfold stateWF tablesWF
  infer_instance

theorem dataSlot_pushData (g : Geometry) (i : Nat) (tup : List JsNum) :
    dataSlot (pushData g i tup).data i = dataSlot g.data i ++ tup := by
  match i with
  | 0 => rfl
  | 1 => rfl
  | 2 => rfl
  | n + 3 => rfl

theorem pushTup_some {st st' : ObjState} {i : Nat} {tup : List JsNum}
    (h : pushTup st i tup = some st') :
    currentOutput st' i = currentOutput st i ++ tup ∧
    st'.objPositions = st.objPositions ∧ st'.objColors = st.objColors := by
  unfold pushTup at h
  cases hg : st.geometry with
  | none => rw [hg] at h; cases h
  | some g =>
    rw [hg] at h
    cases h
    refine ⟨?_, rfl, rfl⟩
    simp [currentOutput, hg, dataSlot_pushData]

theorem pushTup_of_isSome {st : ObjState} {i : Nat} {tup : List JsNum}
    (h : st.geometry.isSome) : ∃ st', pushTup st i tup = some st' := by
  unfold pushTup
  cases hg : st.geometry with
  | none => rw [hg] at h; cases h
  | some g => exact ⟨_, rfl⟩

theorem jsParseInt_nil : jsParseInt ([] : List Char) = none := rfl

/-- The gate never changes the accumulated geometry list: it only moves the
open geometry (if any, and only if nonempty) from the pending slot to the
closed list. -/

theorem allGeometries_newGeometry (st : ObjState) :
    allGeometries (newGeometry st) = allGeometries st := by
  unfold newGeometry allGeometries
  cases hg : st.geometry with
  | none => simp [hg]
  | some g =>
    by_cases hpos : g.data.position ≠ [] <;> simp [hpos, hg]

theorem getElem?_cons_length (x : α) (l : List α) (h : l ≠ []) :
    (x :: l)[l.length]? = some (l.getLast h) := by
  induction l generalizing x with
  | nil => exact absurd rfl h
  | cons y ys ih =>
    cases ys with
    | nil => rfl
    | cons z zs =>
      rw [List.length_cons, List.getElem?_cons_succ, ih y (by simp)]
      exact congrArg some (List.getLast_cons (by simp)).symm

/-- Successful path of one sub-index: when the resolved index (the source's
`objIndex + (objIndex >= 0 ? 0 : objVertexData[i].length)`) dereferences a
tuple, that tuple's components are appended to output array `i` of the
current geometry.  The color-coupling of slot 0 is switched off by the
`st.objColors.length = 1` hypothesis. -/

theorem addVertexSub_push (st : ObjState) (i : Nat) (s : List Char) (n : Int) (tup : List JsNum)
    (hi : i ≤ 3) (hgeo : st.geometry.isSome)
    (hcol : i = 0 → st.objColors.length = 1)
    (hs : jsParseInt s = some n)
    (hidx : listGetInt (vertexTable st i)
      (n + if 0 ≤ n then 0 else ((vertexTable st i).length : Int)) = some tup) :
    ∃ st', addVertexSub st i s = some st' ∧
      currentOutput st' i = currentOutput st i ++ tup ∧
      st'.objPositions = st.objPositions ∧ st'.objColors = st.objColors := by
  have hsne : s ≠ [] := by
    rintro rfl
    rw [jsParseInt_nil] at hs
    cases hs
  obtain ⟨st1, hpush⟩ := @pushTup_of_isSome st i tup hgeo
  obtain ⟨hout, hpos, hcols⟩ := pushTup_some hpush
  refine ⟨st1, ?_, hout, hpos, hcols⟩
  simp only [addVertexSub, hsne, if_false, hs]
  rw [if_pos hi]
  simp only [hidx, hpush]
  by_cases hi0 : i = 0
  · rw [if_neg (by simp [hi0, hcol hi0])]
  · rw [if_neg (by simp [hi0])]

/-- C1 (confirmed).  In any state whose attribute table for sub-index slot
`i` consists of the zero sentinel `sent` (index 0) followed by the declared
elements `decls` in declaration order, a face vertex sub-index parsing to `1`
dereferences the first declared element and a sub-index parsing to `-1`
dereferences the most recently appended element, both measured against the
table held in the state at the moment the face line is processed (negative
resolution adds the table's *current* length).  The tuple found is appended
to the matching output array of the current geometry.  The color-table
hypothesis merely switches off the orthogonal position-to-color coupling of
slot 0 (see C10), which would otherwise also write to the color output. -/

theorem claim1_index_resolution
    (st : ObjState) (i : Nat) (s1 sm : List Char)
    (sent : List JsNum) (decls : List (List JsNum))
    (hi : i ≤ 3)
    (hgeo : st.geometry.isSome)
    (htab : vertexTable st i = sent :: decls)
    (hne : decls ≠ [])
    (hcol : i = 0 → st.objColors.length = 1)
    (h1 : jsParseInt s1 = some 1)
    (hm : jsParseInt sm = some (-1)) :
    (addVertexSub st i s1).map (fun st' => currentOutput st' i) =
      some (currentOutput st i ++ decls.head hne) ∧
    (addVertexSub st i sm).map (fun st' => currentOutput st' i) =
      some (currentOutput st i ++ decls.getLast hne) := by
  obtain ⟨d, ds, rfl⟩ := List.exists_cons_of_ne_nil hne
  constructor
  · obtain ⟨st', hrun, hout, -, -⟩ :=
      addVertexSub_push st i s1 1 d hi hgeo hcol h1
        (by rw [htab]; simp [listGetInt])
    rw [hrun]
    simpa using hout
  · obtain ⟨st'', hrun, hout, -, -⟩ :=
      addVertexSub_push st i sm (-1) ((d :: ds).getLast hne) hi hgeo hcol hm
        (by
          rw [htab]
          have hlen : ((-1 : Int) + ((sent :: d :: ds).length : Int)) = ((d :: ds).length : Int) := by
            simp [List.length_cons]
          rw [if_neg (by norm_num), hlen]
          simp only [listGetInt, Int.toNat_natCast, if_pos (Int.natCast_nonneg _)]
          exact getElem?_cons_length sent (d :: ds) hne)
    rw [hrun]
    simpa using hout

/-- Witness for C1: in `c1State`, sub-index `1` appends the first declared
position `[1,2,3]` and sub-index `-1` appends the most recently declared
position `[7,8,9]`. -/

theorem claim1_witness :
    (addVertexSub c1State 0 "1".data).map (fun st' => currentOutput st' 0) =
      some (currentOutput c1State 0 ++ [JsNum.num 1, JsNum.num 2, JsNum.num 3]) ∧
    (addVertexSub c1State 0 "-1".data).map (fun st' => currentOutput st' 0) =
      some (currentOutput c1State 0 ++ [JsNum.num 7, JsNum.num 8, JsNum.num 9]) :=
  claim1_index_resolution c1State 0 "1".data "-1".data zero3
    [[JsNum.num 1, JsNum.num 2, JsNum.num 3], [JsNum.num 7, JsNum.num 8, JsNum.num 9]]
    (by decide) (by decide) rfl (by decide) (fun _ => rfl) (by decide) (by decide)

/-! ## Claim C2 -/

theorem faceTris_eq_emitTriangles (value : List (List Char)) :
    ∀ (ks : List Nat) (st : ObjState),
      faceTris value st ks =
        emitTriangles st (ks.map fun k =>
          (value.getD 0 [], value.getD (k + 1) [], value.getD (k + 2) []))
  | [], st => rfl
  | k :: ks, st => by
    have h := faceTris_eq_emitTriangles value ks
    simp only [faceTris, List.map_cons, emitTriangles, emitTriangle]
    cases h0 : addVertex st (value.getD 0 []) with
    | none => simp [h0]
    | some st1 =>
      simp only [h0]
      cases h1 : addVertex st1 (value.getD (k + 1) []) with
      | none => simp [h1]
      | some st2 =>
        simp only [h1]
        cases h2 : addVertex st2 (value.getD (k + 2) []) with
        | none => simp [h2]
        | some st3 =>
          simp only [h2]
          exact h st3

/-- C2 (confirmed).  For an `f` line with `N ≥ 3` vertex references the
handler emits exactly `N - 2` triangles, forming a fan with reference 0 as
shared apex: triangle `k` is `(v0, v(k+1), v(k+2))` in that order, and
`processFace` (the source's handler: `setGeometry()` followed by the
`numTriangles = value.length - 2` loop of three `addVertex` calls) is exactly
the emission of that triangle list into the current geometry. -/

theorem claim2_fan_triangulation (st : ObjState) (value : List (List Char))
    (hN : 3 ≤ value.length) :
    (fanTriangles value).length = value.length - 2 ∧
    (∀ k, k < value.length - 2 →
      (fanTriangles value)[k]? =
        some (value.getD 0 [], value.getD (k + 1) [], value.getD (k + 2) [])) ∧
    processFace st value = emitTriangles (setGeometry st) (fanTriangles value) := by
  refine ⟨by simp [fanTriangles], ?_, ?_⟩
  · intro k hk
    simp [fanTriangles, List.getElem?_map, List.getElem?_range hk]
  · rw [processFace, fanTriangles, faceTris_eq_emitTriangles]

/-- Witness for C2 on a concrete quadrilateral face: 2 triangles, apex `1`,
and the handler agrees with the fan emission. -/

theorem claim2_witness :
    (fanTriangles ["1".data, "2".data, "3".data, "4".data]).length = 2 ∧
    (∀ k, k < 2 →
      (fanTriangles ["1".data, "2".data, "3".data, "4".data])[k]? =
        some (["1".data, "2".data, "3".data, "4".data].getD 0 [],
          ["1".data, "2".data, "3".data, "4".data].getD (k + 1) [],
          ["1".data, "2".data, "3".data, "4".data].getD (k + 2) [])) ∧
    processFace initObjState ["1".data, "2".data, "3".data, "4".data] =
      emitTriangles (setGeometry initObjState)
        (fanTriangles ["1".data, "2".data, "3".data, "4".data]) :=
  claim2_fan_triangulation initObjState ["1".data, "2".data, "3".data, "4".data]
    (by decide)

/-! ## Claim C3 -/

/-- C3 (confirmed).  The state-change gate `newGeometry` (called by `usemtl`,
`g` and `o`) closes the current geometry only when it already holds at least
one emitted position component: with an empty position output the state is
returned untouched (the pending geometry is reused), and with a nonempty one
the geometry is closed.  The three state-setting handlers never add or drop a
geometry (`allGeometries` is unchanged), so consecutive `usemtl`/`g`/`o`
lines with no intervening face cannot produce an empty geometry.  Concretely,
`o A` then `g g1` then `f 1 2 3` after three `v` lines yields exactly one
geometry, with object `"A"` and group list `["g1"]`. -/

theorem claim3_geometry_gate :
    (∀ st g, st.geometry = some g → g.data.position = [] → newGeometry st = st) ∧
    (∀ st g, st.geometry = some g → g.data.position ≠ [] →
      newGeometry st =
        { st with geometry := none, geometries := st.geometries ++ [g] }) ∧
    (∀ st value,
      allGeometries (handleUsemtl st value) = allGeometries st ∧
      allGeometries (handleG st value) = allGeometries st ∧
      allGeometries (handleO st value) = allGeometries st) ∧
    ((ParseObjFile "v 0 0 0\nv 1 0 0\nv 0 1 0\no A\ng g1\nf 1 2 3").map
        (fun r => r.geometries.map fun g => (g.object, g.groups)) =
      some [(some "A".data, ["g1".data])]) := by
  refine ⟨?_, ?_, ?_, by decide⟩
  · intro st g hg hpos
    unfold newGeometry
    rw [hg]
    simp [hpos]
  · intro st g hg hpos
    unfold newGeometry
    rw [hg]
    simp [hpos]
  · intro st value
    refine ⟨?_, ?_, ?_⟩
    · unfold handleUsemtl
      rw [allGeometries_newGeometry]
      rfl
    · unfold handleG
      rw [allGeometries_newGeometry]
      rfl
    · unfold handleO
      rw [allGeometries_newGeometry]
      rfl

/-- Witness for C3: the gate reuses the empty pending geometry of `c1State`
and closes the nonempty one of `c3State`. -/

theorem claim3_witness :
    newGeometry c1State = c1State ∧
    newGeometry c3State =
      { c3State with geometry := none, geometries := c3State.geometries ++ [c3Geom] } ∧
    allGeometries (handleG c1State ["g1".data]) = allGeometries c1State :=
  ⟨claim3_geometry_gate.1 c1State _ rfl rfl,
   claim3_geometry_gate.2.1 c3State c3Geom rfl (by decide),
   (claim3_geometry_gate.2.2.1 c1State ["g1".data]).2.1⟩

/-! ## Claim C4 -/

/-- C4 (corrected): counterexample to the claim as stated.  After `v 0 0 0`
(no inline color) followed by `v 1 1 1 9 9 9`, the entry `[1,1,1]` appended
to the position table sits at index 2 while the entry `[9,9,9]` appended to
the color table sits at index 1: the new color entry's index does *not*
equal the new position entry's index, because the first `v` line grew only
the position table. -/

theorem claim4_counterexample :
    ((runObjLines initObjState (splitLines "v 0 0 0\nv 1 1 1 9 9 9".data)).map
        (fun st => (st.objPositions, st.objColors))) =
      some ([zero3, [JsNum.num 0, JsNum.num 0, JsNum.num 0],
              [JsNum.num 1, JsNum.num 1, JsNum.num 1]],
            [zero3, [JsNum.num 9, JsNum.num 9, JsNum.num 9]]) ∧
    ((runObjLines initObjState (splitLines "v 0 0 0\nv 1 1 1 9 9 9".data)).map
        (fun st => (st.objPositions.length - 1, st.objColors.length - 1))) =
      some (2, 1) ∧
    (2 : Nat) ≠ 1 := by
  exact ⟨by decide, by decide, by decide⟩

/-- C4 (corrected), amended claim.  A `v` line with more than 3 tokens
appends the first 3 parsed tokens to the position table and the remaining
parsed tokens to the color table; the new color entry's index equals the new
position entry's index *provided the two tables had equal length before the
line* (as when every earlier `v` line also carried a color) - not in
general.  A `v` line with exactly 3 tokens appends them to the position
table and creates no color entry. -/

theorem claim4_amended (st : ObjState) (value : List (List Char)) :
    (3 < value.length →
      handleV st value =
        { st with
          objPositions := st.objPositions ++ [(value.take 3).map jsParseFloat],
          objColors := st.objColors ++ [(value.drop 3).map jsParseFloat] } ∧
      (st.objPositions.length = st.objColors.length →
        (handleV st value).objPositions.length - 1 =
          (handleV st value).objColors.length - 1)) ∧
    (value.length = 3 →
      handleV st value =
        { st with objPositions := st.objPositions ++ [value.map jsParseFloat] }) := by
  constructor
  · intro h
    refine ⟨by simp [handleV, h], ?_⟩
    intro heq
    simp [handleV, h, heq]
  · intro h
    have h' : ¬ 3 < value.length := by omega
    simp [handleV, h']

/-- Witness for C4's amended claim, on `v 1 1 1 9 9 9` (aligned tables) and
`v 1 2 3`. -/

theorem claim4_witness :
    (handleV initObjState (["1", "1", "1", "9", "9", "9"].map String.data) =
      { initObjState with
        objPositions := initObjState.objPositions ++
          [((["1", "1", "1", "9", "9", "9"].map String.data).take 3).map jsParseFloat],
        objColors := initObjState.objColors ++
          [((["1", "1", "1", "9", "9", "9"].map String.data).drop 3).map jsParseFloat] }) ∧
    ((handleV initObjState (["1", "1", "1", "9", "9", "9"].map String.data)).objPositions.length - 1 =
      (handleV initObjState (["1", "1", "1", "9", "9", "9"].map String.data)).objColors.length - 1) ∧
    (handleV initObjState (["1", "2", "3"].map String.data) =
      { initObjState with
        objPositions := initObjState.objPositions ++
          [(["1", "2", "3"].map String.data).map jsParseFloat] }) :=
  ⟨((claim4_amended initObjState (["1", "1", "1", "9", "9", "9"].map String.data)).1
      (by decide)).1,
   ((claim4_amended initObjState (["1", "1", "1", "9", "9", "9"].map String.data)).1
      (by decide)).2 (by decide),
   (claim4_amended initObjState (["1", "2", "3"].map String.data)).2 (by decide)⟩

/-! ## Claim C5 -/

theorem pruneArr_ne_some_nil (l : List JsNum) : pruneArr l ≠ some [] := by
  unfold pruneArr
  by_cases h : l = [] <;> simp [h]

/-- C5 (confirmed).  In a returned parse result, no geometry carries a
texcoord, normal or color attribute that is present but empty: the post-parse
cleanup deletes (maps to `none`) every attribute array into which no value
was emitted over the whole parse, so an attribute key is never present as an
empty array. -/

theorem claim5_empty_attrs_pruned (text : String) (res : ObjResult)
    (h : ParseObjFile text = some res) :
    ∀ g ∈ res.geometries,
      g.data.texcoord ≠ some [] ∧ g.data.normal ≠ some [] ∧ g.data.color ≠ some [] := by
  intro g hg
  unfold ParseObjFile at h
  cases hrun : runObjLines initObjState (splitLines text.data) with
  | none => rw [hrun] at h; cases h
  | some st =>
    rw [hrun] at h
    cases h
    obtain ⟨g0, -, rfl⟩ := List.mem_map.1 hg
    exact ⟨pruneArr_ne_some_nil _, pruneArr_ne_some_nil _, pruneArr_ne_some_nil _⟩

/-- Witness for C5 on the spec's end-to-end example: the unused texcoord,
normal and color attributes are absent, not empty. -/

theorem claim5_witness :
    c5Geometry.data.texcoord ≠ some [] ∧
    c5Geometry.data.normal ≠ some [] ∧
    c5Geometry.data.color ≠ some [] :=
  claim5_empty_attrs_pruned "v 0 0 0\nv 1 0 0\nv 0 1 0\nf 1 2 3"
    { geometries := [c5Geometry], materialLibs := [] } (by decide)
    c5Geometry (by decide)

/-! ## Claim C7 -/

/-- C7 (confirmed).  With a current material selected (and present, as
`newmtl` guarantees), `map_Kd` stores the whole token list after the keyword,
joined with single spaces, as the material's `diffuseMap`, and `map_Ns` does
the same into `specularMap`.  No token is inspected or dropped, so option
flags such as `-o`/`-s` and space-separated pieces all end up verbatim inside
the stored path. -/

theorem claim7_map_paths_verbatim (st : MtlState) (name : List Char) (m : Material)
    (value : List (List Char))
    (hidx : st.index = some name)
    (hm : lookupMat st.materials name = some m) :
    handleMapKd st value =
      some ({ st with
        materials := setMat st.materials name ({ m with diffuseMap := some (joinSpace value) }) }) ∧
    handleMapNs st value =
      some ({ st with
        materials := setMat st.materials name ({ m with specularMap := some (joinSpace value) }) }) := by
  unfold handleMapKd handleMapNs propUpdate
  rw [hidx]
  simp [matKey, hm]

/-- Witness for C7: an argument list full of option flags and spaces is
stored as the single verbatim path `"-o 1 1 tex file.png"`. -/

theorem claim7_witness :
    handleMapKd c7State c7Value =
      some ({ c7State with
        materials := setMat c7State.materials "m".data ({ c7Mat with diffuseMap := some (joinSpace c7Value) }) }) ∧
    handleMapNs c7State c7Value =
      some ({ c7State with
        materials := setMat c7State.materials "m".data ({ c7Mat with specularMap := some (joinSpace c7Value) }) }) ∧
    joinSpace c7Value = "-o 1 1 tex file.png".data :=
  ⟨(claim7_map_paths_verbatim c7State "m".data c7Mat c7Value rfl rfl).1,
   (claim7_map_paths_verbatim c7State "m".data c7Mat c7Value rfl rfl).2,
   by decide⟩

/-! ## Claim C9 -/

theorem ne_of_not_mem {a b : List Char} {s : List (List Char)}
    (h : a ∉ s) (hb : b ∈ s) : a ≠ b :=
  fun he => h (he ▸ hb)

theorem ne_of_mem_not_mem {a b : List Char} {s : List (List Char)}
    (h : a ∈ s) (hb : b ∉ s) : a ≠ b :=
  fun he => hb (he ▸ h)

/-- C9 (corrected): counterexample to the claim as stated.  The line
`__proto__ 1 2` has a leading keyword outside the recognized set, yet the
parse is aborted: `keywords["__proto__"]` finds the accessor member inherited
from `Object.prototype` (truthy, so the missing-handler warn-and-skip path is
not taken) and calling its non-function value throws a `TypeError`.  Omitting
the line would have succeeded.  Likewise `toString 1` is skipped *without*
the claimed warning (the inherited `toString` is callable and its call has no
observable effect). -/

theorem claim9_counterexample :
    ParseObjFile "__proto__ 1 2" = none ∧
    ParseObjFile "" = some ({ geometries := [], materialLibs := [] }) ∧
    runObjLines initObjState (splitLines "toString 1".data) = some initObjState :=
  ⟨by decide, by decide, by decide⟩

/-- C9 (corrected), amended claim.  For a dispatched line (nonblank, not a
comment) of either file: when the leading keyword is neither a recognized
keyword of either parser nor the name of an `Object.prototype` member, the
line is skipped after recording a warning and parsing continues with no other
state change; when the keyword is `constructor` or `toString` (the only two
inherited members whose detached call with `this = undefined` returns
normally), the line is silently skipped with *no* warning; and when it names
any other inherited member (`__proto__`, `__defineGetter__`,
`__defineSetter__`, `hasOwnProperty`, `isPrototypeOf`,
`propertyIsEnumerable`, `toLocaleString`, `valueOf`, `__lookupGetter__`,
`__lookupSetter__`), the dispatched call throws a `TypeError` and the parse
aborts. -/

theorem claim9_amended (stO : ObjState) (stM : MtlState) (l : List Char)
    (h1 : trimJS l ≠ [])
    (h2 : (trimJS l).headD 'a' ≠ '#') :
    (lineKeyword l ∉ objKeywords → lineKeyword l ∉ mtlKeywords →
      lineKeyword l ∉ protoSkipNames → lineKeyword l ∉ protoThrowNames →
      processObjLine stO l =
        some ({ stO with warnings := stO.warnings ++ [lineKeyword l] }) ∧
      processMtlLine stM l =
        some ({ stM with warnings := stM.warnings ++ [lineKeyword l] })) ∧
    (lineKeyword l ∈ protoSkipNames →
      processObjLine stO l = some stO ∧ processMtlLine stM l = some stM) ∧
    (lineKeyword l ∈ protoThrowNames →
      processObjLine stO l = none ∧ processMtlLine stM l = none) := by
  refine ⟨?_, ?_, ?_⟩
  · intro ho hm hs ht
    have es : (trimJS l).takeWhile isWordCharJS ∉ protoSkipNames := hs
    have et : (trimJS l).takeWhile isWordCharJS ∉ protoThrowNames := ht
    have e1 : (trimJS l).takeWhile isWordCharJS ≠ "v".data := ne_of_not_mem ho (by decide)
    have e2 : (trimJS l).takeWhile isWordCharJS ≠ "vn".data := ne_of_not_mem ho (by decide)
    have e3 : (trimJS l).takeWhile isWordCharJS ≠ "vt".data := ne_of_not_mem ho (by decide)
    have e4 : (trimJS l).takeWhile isWordCharJS ≠ "f".data := ne_of_not_mem ho (by decide)
    have e5 : (trimJS l).takeWhile isWordCharJS ≠ "s".data := ne_of_not_mem ho (by decide)
    have e6 : (trimJS l).takeWhile isWordCharJS ≠ "mtllib".data := ne_of_not_mem ho (by decide)
    have e7 : (trimJS l).takeWhile isWordCharJS ≠ "usemtl".data := ne_of_not_mem ho (by decide)
    have e8 : (trimJS l).takeWhile isWordCharJS ≠ "g".data := ne_of_not_mem ho (by decide)
    have e9 : (trimJS l).takeWhile isWordCharJS ≠ "o".data := ne_of_not_mem ho (by decide)
    have f1 : (trimJS l).takeWhile isWordCharJS ≠ "newmtl".data := ne_of_not_mem hm (by decide)
    have f2 : (trimJS l).takeWhile isWordCharJS ≠ "Ns".data := ne_of_not_mem hm (by decide)
    have f3 : (trimJS l).takeWhile isWordCharJS ≠ "Ka".data := ne_of_not_mem hm (by decide)
    have f4 : (trimJS l).takeWhile isWordCharJS ≠ "Kd".data := ne_of_not_mem hm (by decide)
    have f5 : (trimJS l).takeWhile isWordCharJS ≠ "Ks".data := ne_of_not_mem hm (by decide)
    have f6 : (trimJS l).takeWhile isWordCharJS ≠ "Ke".data := ne_of_not_mem hm (by decide)
    have f7 : (trimJS l).takeWhile isWordCharJS ≠ "map_Kd".data := ne_of_not_mem hm (by decide)
    have f8 : (trimJS l).takeWhile isWordCharJS ≠ "map_Ns".data := ne_of_not_mem hm (by decide)
    have f9 : (trimJS l).takeWhile isWordCharJS ≠ "Ni".data := ne_of_not_mem hm (by decide)
    have f10 : (trimJS l).takeWhile isWordCharJS ≠ "d".data := ne_of_not_mem hm (by decide)
    have f11 : (trimJS l).takeWhile isWordCharJS ≠ "illum".data := ne_of_not_mem hm (by decide)
    constructor
    · unfold processObjLine
      rw [if_neg h1, if_neg h2, if_neg e1, if_neg e2, if_neg e3, if_neg e4, if_neg e5,
        if_neg e6, if_neg e7, if_neg e8, if_neg e9, if_neg es, if_neg et]
      rfl
    · unfold processMtlLine
      rw [if_neg h1, if_neg h2, if_neg f1, if_neg f2, if_neg f3, if_neg f4, if_neg f5,
        if_neg f6, if_neg f7, if_neg f8, if_neg f9, if_neg f10, if_neg f11,
        if_neg es, if_neg et]
      rfl
  · intro hs
    have es : (trimJS l).takeWhile isWordCharJS ∈ protoSkipNames := hs
    have e1 : (trimJS l).takeWhile isWordCharJS ≠ "v".data := ne_of_mem_not_mem hs (by decide)
    have e2 : (trimJS l).takeWhile isWordCharJS ≠ "vn".data := ne_of_mem_not_mem hs (by decide)
    have e3 : (trimJS l).takeWhile isWordCharJS ≠ "vt".data := ne_of_mem_not_mem hs (by decide)
    have e4 : (trimJS l).takeWhile isWordCharJS ≠ "f".data := ne_of_mem_not_mem hs (by decide)
    have e5 : (trimJS l).takeWhile isWordCharJS ≠ "s".data := ne_of_mem_not_mem hs (by decide)
    have e6 : (trimJS l).takeWhile isWordCharJS ≠ "mtllib".data := ne_of_mem_not_mem hs (by decide)
    have e7 : (trimJS l).takeWhile isWordCharJS ≠ "usemtl".data := ne_of_mem_not_mem hs (by decide)
    have e8 : (trimJS l).takeWhile isWordCharJS ≠ "g".data := ne_of_mem_not_mem hs (by decide)
    have e9 : (trimJS l).takeWhile isWordCharJS ≠ "o".data := ne_of_mem_not_mem hs (by decide)
    have f1 : (trimJS l).takeWhile isWordCharJS ≠ "newmtl".data := ne_of_mem_not_mem hs (by decide)
    have f2 : (trimJS l).takeWhile isWordCharJS ≠ "Ns".data := ne_of_mem_not_mem hs (by decide)
    have f3 : (trimJS l).takeWhile isWordCharJS ≠ "Ka".data := ne_of_mem_not_mem hs (by decide)
    have f4 : (trimJS l).takeWhile isWordCharJS ≠ "Kd".data := ne_of_mem_not_mem hs (by decide)
    have f5 : (trimJS l).takeWhile isWordCharJS ≠ "Ks".data := ne_of_mem_not_mem hs (by decide)
    have f6 : (trimJS l).takeWhile isWordCharJS ≠ "Ke".data := ne_of_mem_not_mem hs (by decide)
    have f7 : (trimJS l).takeWhile isWordCharJS ≠ "map_Kd".data := ne_of_mem_not_mem hs (by decide)
    have f8 : (trimJS l).takeWhile isWordCharJS ≠ "map_Ns".data := ne_of_mem_not_mem hs (by decide)
    have f9 : (trimJS l).takeWhile isWordCharJS ≠ "Ni".data := ne_of_mem_not_mem hs (by decide)
    have f10 : (trimJS l).takeWhile isWordCharJS ≠ "d".data := ne_of_mem_not_mem hs (by decide)
    have f11 : (trimJS l).takeWhile isWordCharJS ≠ "illum".data := ne_of_mem_not_mem hs (by decide)
    constructor
    · unfold processObjLine
      rw [if_neg h1, if_neg h2, if_neg e1, if_neg e2, if_neg e3, if_neg e4, if_neg e5,
        if_neg e6, if_neg e7, if_neg e8, if_neg e9, if_pos es]
    · unfold processMtlLine
      rw [if_neg h1, if_neg h2, if_neg f1, if_neg f2, if_neg f3, if_neg f4, if_neg f5,
        if_neg f6, if_neg f7, if_neg f8, if_neg f9, if_neg f10, if_neg f11, if_pos es]
  · intro ht
    have hdisj : ∀ x ∈ protoThrowNames, x ∉ protoSkipNames := by decide
    have es : (trimJS l).takeWhile isWordCharJS ∉ protoSkipNames := hdisj _ ht
    have et : (trimJS l).takeWhile isWordCharJS ∈ protoThrowNames := ht
    have e1 : (trimJS l).takeWhile isWordCharJS ≠ "v".data := ne_of_mem_not_mem ht (by decide)
    have e2 : (trimJS l).takeWhile isWordCharJS ≠ "vn".data := ne_of_mem_not_mem ht (by decide)
    have e3 : (trimJS l).takeWhile isWordCharJS ≠ "vt".data := ne_of_mem_not_mem ht (by decide)
    have e4 : (trimJS l).takeWhile isWordCharJS ≠ "f".data := ne_of_mem_not_mem ht (by decide)
    have e5 : (trimJS l).takeWhile isWordCharJS ≠ "s".data := ne_of_mem_not_mem ht (by decide)
    have e6 : (trimJS l).takeWhile isWordCharJS ≠ "mtllib".data := ne_of_mem_not_mem ht (by decide)
    have e7 : (trimJS l).takeWhile isWordCharJS ≠ "usemtl".data := ne_of_mem_not_mem ht (by decide)
    have e8 : (trimJS l).takeWhile isWordCharJS ≠ "g".data := ne_of_mem_not_mem ht (by decide)
    have e9 : (trimJS l).takeWhile isWordCharJS ≠ "o".data := ne_of_mem_not_mem ht (by decide)
    have f1 : (trimJS l).takeWhile isWordCharJS ≠ "newmtl".data := ne_of_mem_not_mem ht (by decide)
    have f2 : (trimJS l).takeWhile isWordCharJS ≠ "Ns".data := ne_of_mem_not_mem ht (by decide)
    have f3 : (trimJS l).takeWhile isWordCharJS ≠ "Ka".data := ne_of_mem_not_mem ht (by decide)
    have f4 : (trimJS l).takeWhile isWordCharJS ≠ "Kd".data := ne_of_mem_not_mem ht (by decide)
    have f5 : (trimJS l).takeWhile isWordCharJS ≠ "Ks".data := ne_of_mem_not_mem ht (by decide)
    have f6 : (trimJS l).takeWhile isWordCharJS ≠ "Ke".data := ne_of_mem_not_mem ht (by decide)
    have f7 : (trimJS l).takeWhile isWordCharJS ≠ "map_Kd".data := ne_of_mem_not_mem ht (by decide)
    have f8 : (trimJS l).takeWhile isWordCharJS ≠ "map_Ns".data := ne_of_mem_not_mem ht (by decide)
    have f9 : (trimJS l).takeWhile isWordCharJS ≠ "Ni".data := ne_of_mem_not_mem ht (by decide)
    have f10 : (trimJS l).takeWhile isWordCharJS ≠ "d".data := ne_of_mem_not_mem ht (by decide)
    have f11 : (trimJS l).takeWhile isWordCharJS ≠ "illum".data := ne_of_mem_not_mem ht (by decide)
    constructor
    · unfold processObjLine
      rw [if_neg h1, if_neg h2, if_neg e1, if_neg e2, if_neg e3, if_neg e4, if_neg e5,
        if_neg e6, if_neg e7, if_neg e8, if_neg e9, if_neg es, if_pos et]
    · unfold processMtlLine
      rw [if_neg h1, if_neg h2, if_neg f1, if_neg f2, if_neg f3, if_neg f4, if_neg f5,
        if_neg f6, if_neg f7, if_neg f8, if_neg f9, if_neg f10, if_neg f11,
        if_neg es, if_pos et]

/-- Witness for C9's amended claim on the lines `foo 1` (genuinely unknown:
warn, skip, continue), `toString 1` (inherited member callable on an
`undefined` receiver: silent skip), and `__proto__ 1` and `valueOf 1`
(inherited members whose dispatch throws: the parse aborts). -/

theorem claim9_witness :
    (processObjLine initObjState "foo 1".data =
      some ({ initObjState with warnings := initObjState.warnings ++ [lineKeyword "foo 1".data] }) ∧
     processMtlLine initMtlState "foo 1".data =
      some ({ initMtlState with warnings := initMtlState.warnings ++ [lineKeyword "foo 1".data] })) ∧
    (processObjLine initObjState "toString 1".data = some initObjState ∧
     processMtlLine initMtlState "toString 1".data = some initMtlState) ∧
    (processObjLine initObjState "__proto__ 1".data = none ∧
     processMtlLine initMtlState "__proto__ 1".data = none) ∧
    (processObjLine initObjState "valueOf 1".data = none ∧
     processMtlLine initMtlState "valueOf 1".data = none) :=
  ⟨(claim9_amended initObjState initMtlState "foo 1".data (by decide) (by decide)).1
      (by decide) (by decide) (by decide) (by decide),
   (claim9_amended initObjState initMtlState "toString 1".data (by decide) (by decide)).2.1
      (by decide),
   (claim9_amended initObjState initMtlState "__proto__ 1".data (by decide) (by decide)).2.2
      (by decide),
   (claim9_amended initObjState initMtlState "valueOf 1".data (by decide) (by decide)).2.2
      (by decide)⟩

/-! ## Claim C10 -/

/-- C10 (confirmed).  Face-index resolution is not total.  For any sub-index
slot `i ≤ 3`: a nonnegative parsed index at or past the table's length throws
(`undefined` is spread), and a negative parsed index whose magnitude exceeds
the table's current length resolves below 0 and throws.  For the position
slot, even a valid index throws when the color table holds more than its
sentinel but no entry at that index (some but not all `v` lines carried
inline colors).  A parsed index of exactly `0`, by contrast, silently
dereferences the sentinel zero tuple and emits it.  The four closed conjuncts
run whole parses: the three failing inputs make `ParseObjFile` throw instead
of returning, and `f 0 0 0` returns a geometry made of three sentinel
tuples. -/

theorem claim10_partiality :
    (∀ (st : ObjState) (i : Nat) (s : List Char) (n : Int), i ≤ 3 → jsParseInt s = some n →
      (0 ≤ n → (vertexTable st i).length ≤ n.toNat → addVertexSub st i s = none) ∧
      (n < 0 → n + ((vertexTable st i).length : Int) < 0 → addVertexSub st i s = none)) ∧
    (∀ (st : ObjState) (s : List Char) (n : Int), jsParseInt s = some n → 0 ≤ n →
      n.toNat < st.objPositions.length → 1 < st.objColors.length →
      st.objColors.length ≤ n.toNat → addVertexSub st 0 s = none) ∧
    (∀ (st : ObjState) (i : Nat) (s : List Char) (rest : List (List JsNum)),
      i ≤ 3 → jsParseInt s = some 0 → st.geometry.isSome →
      (i = 0 → st.objColors.length = 1) →
      vertexTable st i = sentinelTup i :: rest →
      (addVertexSub st i s).map (fun st' => currentOutput st' i) =
        some (currentOutput st i ++ sentinelTup i)) ∧
    ParseObjFile "v 0 0 0\nf 2 2 2" = none ∧
    ParseObjFile "v 0 0 0\nf -3 -3 -3" = none ∧
    ParseObjFile "v 0 0 0 1 1 1\nv 1 0 0\nv 0 1 0\nf 1 2 3" = none ∧
    ParseObjFile "f 0 0 0" =
      some ({ geometries := [c10Geometry], materialLibs := [] }) := by
  refine ⟨?_, ?_, ?_, by decide, by decide, by decide, by decide⟩
  · intro st i s n hi hs
    have hsne : s ≠ [] := by
      rintro rfl
      rw [jsParseInt_nil] at hs
      cases hs
    constructor
    · intro hn0 hlen
      have hget : listGetInt (vertexTable st i) (n + if 0 ≤ n then 0 else
          ((vertexTable st i).length : Int)) = none := by
        rw [if_pos hn0, add_zero]
        unfold listGetInt
        rw [if_pos hn0]
        exact List.getElem?_eq_none hlen
      simp only [addVertexSub, hsne, if_false, hs]
      rw [if_pos hi]
      simp only [hget]
    · intro hn0 hres
      have hget : listGetInt (vertexTable st i) (n + if 0 ≤ n then 0 else
          ((vertexTable st i).length : Int)) = none := by
        rw [if_neg (not_le.mpr hn0)]
        unfold listGetInt
        rw [if_neg (not_le.mpr hres)]
      simp only [addVertexSub, hsne, if_false, hs]
      rw [if_pos hi]
      simp only [hget]
  · intro st s n hs hn0 hpos hc1 hc2
    have hsne : s ≠ [] := by
      rintro rfl
      rw [jsParseInt_nil] at hs
      cases hs
    have hget : listGetInt (vertexTable st 0) (n + if 0 ≤ n then 0 else
        ((vertexTable st 0).length : Int)) = some (st.objPositions.get ⟨n.toNat, hpos⟩) := by
      rw [if_pos hn0, add_zero]
      unfold listGetInt
      rw [if_pos hn0]
      exact List.getElem?_eq_getElem hpos
    have hcget : listGetInt st.objColors (n + if 0 ≤ n then 0 else
        ((vertexTable st 0).length : Int)) = none := by
      rw [if_pos hn0, add_zero]
      unfold listGetInt
      rw [if_pos hn0]
      exact List.getElem?_eq_none hc2
    simp only [addVertexSub, hsne, if_false, hs]
    rw [if_pos (by norm_num : (0 : Nat) ≤ 3)]
    simp only [hget]
    cases hg : st.geometry with
    | none => simp [pushTup, hg]
    | some g =>
      simp only [pushTup, hg]
      rw [if_pos ⟨by trivial, hc1⟩]
      simp only [hcget]
  · intro st i s rest hi hs hgeo hcol htab
    obtain ⟨st', hrun, hout, -, -⟩ :=
      addVertexSub_push st i s 0 (sentinelTup i) hi hgeo hcol hs
        (by rw [htab]; simp [listGetInt])
    rw [hrun]
    simpa using hout

/-- Witness for C10: a positive out-of-range index, a negative out-of-range
index and a valid position index with missing color entry all throw, while
index `0` silently emits the sentinel zero tuple. -/

theorem claim10_witness :
    addVertexSub c1State 0 "5".data = none ∧
    addVertexSub c1State 0 "-9".data = none ∧
    addVertexSub c10State 0 "2".data = none ∧
    (addVertexSub c1State 0 "0".data).map (fun st' => currentOutput st' 0) =
      some (currentOutput c1State 0 ++ sentinelTup 0) :=
  ⟨(claim10_partiality.1 c1State 0 "5".data 5 (by decide) (by decide)).1
      (by decide) (by decide),
   (claim10_partiality.1 c1State 0 "-9".data (-9) (by decide) (by decide)).2
      (by decide) (by decide),
   claim10_partiality.2.1 c10State "2".data 2 (by decide) (by decide)
      (by decide) (by decide) (by decide),
   claim10_partiality.2.2.1 c1State 0 "0".data
      [[JsNum.num 1, JsNum.num 2, JsNum.num 3], [JsNum.num 7, JsNum.num 8, JsNum.num 9]]
      (by decide) (by decide) rfl (fun _ => rfl) rfl⟩

/-! ## Claim C8 -/

/-- A property line reached while `index` is still `undefined` and no record
has been created throws: every property handler dereferences
`materials[index]`, which is `undefined`. -/

theorem processMtlLine_prop_unbound (st : MtlState) (l : List Char)
    (hp : isMtlPropLine l = true)
    (hidx : st.index = none) (hmat : st.materials = []) :
    processMtlLine st l = none := by
  simp only [isMtlPropLine, isSkippedLine, lineKeyword, Bool.and_eq_true, Bool.not_eq_true',
    Bool.or_eq_false_iff, decide_eq_true_eq, decide_eq_false_iff_not] at hp
  obtain ⟨⟨h1, h2⟩, hkw⟩ := hp
  unfold processMtlLine
  rw [if_neg h1, if_neg h2]
  simp only [mtlPropKeywords, List.map_cons, List.map_nil, List.mem_cons,
    List.not_mem_nil, or_false] at hkw
  rcases hkw with h | h | h | h | h | h | h | h | h | h <;>
    · rw [h]
      repeat rw [if_neg (by decide)]
      rw [if_pos (by decide)]
      simp [handleNs, handleKa, handleKd, handleKs, handleKe, handleMapKd, handleMapNs,
        handleNi, handleD, handleIllum, propUpdate, matKey, hidx, hmat, lookupMat]

/-- A dispatched non-property, non-`newmtl` MTL line either throws (the
`__proto__` family) or leaves `index` and `materials` unchanged. -/

theorem processMtlLine_neutral (st : MtlState) (l : List Char)
    (hp : isMtlPropLine l = false) (hn : isMtlNewmtlLine l = false) :
    processMtlLine st l = none ∨
    ∃ st', processMtlLine st l = some st' ∧
      st'.index = st.index ∧ st'.materials = st.materials := by
  by_cases hsk : isSkippedLine l = true
  · simp only [isSkippedLine, Bool.or_eq_true, decide_eq_true_eq] at hsk
    rcases hsk with h | h
    · right
      exact ⟨st, by unfold processMtlLine; rw [if_pos h], rfl, rfl⟩
    · right
      refine ⟨st, ?_, rfl, rfl⟩
      unfold processMtlLine
      by_cases h0 : trimJS l = []
      · rw [if_pos h0]
      · rw [if_neg h0, if_pos h]
  · have hskf : isSkippedLine l = false := by simpa using hsk
    simp only [isMtlPropLine, hskf, Bool.not_false, Bool.true_and, lineKeyword,
      decide_eq_false_iff_not] at hp
    simp only [isMtlNewmtlLine, hskf, Bool.not_false, Bool.true_and,
      decide_eq_false_iff_not, lineKeyword] at hn
    simp only [isSkippedLine, Bool.or_eq_false_iff, decide_eq_false_iff_not] at hskf
    obtain ⟨h1, h2⟩ := hskf
    have f2 : (trimJS l).takeWhile isWordCharJS ≠ "Ns".data := ne_of_not_mem hp (by decide)
    have f3 : (trimJS l).takeWhile isWordCharJS ≠ "Ka".data := ne_of_not_mem hp (by decide)
    have f4 : (trimJS l).takeWhile isWordCharJS ≠ "Kd".data := ne_of_not_mem hp (by decide)
    have f5 : (trimJS l).takeWhile isWordCharJS ≠ "Ks".data := ne_of_not_mem hp (by decide)
    have f6 : (trimJS l).takeWhile isWordCharJS ≠ "Ke".data := ne_of_not_mem hp (by decide)
    have f7 : (trimJS l).takeWhile isWordCharJS ≠ "map_Kd".data := ne_of_not_mem hp (by decide)
    have f8 : (trimJS l).takeWhile isWordCharJS ≠ "map_Ns".data := ne_of_not_mem hp (by decide)
    have f9 : (trimJS l).takeWhile isWordCharJS ≠ "Ni".data := ne_of_not_mem hp (by decide)
    have f10 : (trimJS l).takeWhile isWordCharJS ≠ "d".data := ne_of_not_mem hp (by decide)
    have f11 : (trimJS l).takeWhile isWordCharJS ≠ "illum".data := ne_of_not_mem hp (by decide)
    unfold processMtlLine
    rw [if_neg h1, if_neg h2, if_neg hn, if_neg f2, if_neg f3, if_neg f4, if_neg f5,
      if_neg f6, if_neg f7, if_neg f8, if_neg f9, if_neg f10, if_neg f11]
    by_cases hps : (trimJS l).takeWhile isWordCharJS ∈ protoSkipNames
    · right
      exact ⟨st, by rw [if_pos hps], rfl, rfl⟩
    · rw [if_neg hps]
      by_cases hpt : (trimJS l).takeWhile isWordCharJS ∈ protoThrowNames
      · left
        rw [if_pos hpt]
      · rw [if_neg hpt]
        right
        exact ⟨_, rfl, rfl, rfl⟩

/-- As long as no `newmtl` line has been dispatched, `index` stays
`undefined` and `materials` stays empty, so the first property line throws
and the thrown `TypeError` escapes the whole run. -/

theorem runMtlLines_unbound_none :
    ∀ (lines : List (List Char)) (st : MtlState) (k : Nat),
      st.index = none → st.materials = [] →
      k < lines.length →
      isMtlPropLine (lines.getD k []) = true →
      (∀ j, j < k → isMtlNewmtlLine (lines.getD j []) = false) →
      runMtlLines st lines = none
  | [], _, k => by
    intro _ _ hk _ _
    exact absurd hk (by simp)
  | l :: rest, st, k => by
    intro hidx hmat hk hp hn
    cases k with
    | zero =>
      have h := processMtlLine_prop_unbound st l (by simpa using hp) hidx hmat
      simp [runMtlLines, h]
    | succ k' =>
      by_cases hpl : isMtlPropLine l = true
      · have h := processMtlLine_prop_unbound st l hpl hidx hmat
        simp [runMtlLines, h]
      · have hplf : isMtlPropLine l = false := by simpa using hpl
        have hnl : isMtlNewmtlLine l = false := by simpa using hn 0 (Nat.succ_pos k')
        rcases processMtlLine_neutral st l hplf hnl with hnone | ⟨st', hsome, hidx', hmat'⟩
        · simp [runMtlLines, hnone]
        · have hk' : k' < rest.length := by
            rw [List.length_cons] at hk
            omega
          have hrec := runMtlLines_unbound_none rest st' k'
            (hidx'.trans hidx) (hmat'.trans hmat) hk'
            (by simpa using hp)
            (fun j hj => by simpa using hn (j + 1) (by omega))
          simp [runMtlLines, hsome, hrec]

/-- C8 (confirmed).  If the MTL text contains a material property line
(keyword `Ns`/`Ka`/`Kd`/`Ks`/`Ke`/`map_Kd`/`map_Ns`/`Ni`/`d`/`illum`) at
line `k` with no `newmtl` line anywhere before it, `ParseMaterialFile`
throws (dereferencing `materials[index]` with `index` still `undefined`)
instead of returning a result - the property is not silently recorded. -/

theorem claim8_property_before_newmtl (text : String) (k : Nat)
    (hk : k < (splitLines text.data).length)
    (hp : isMtlPropLine ((splitLines text.data).getD k []) = true)
    (hn : ∀ j, j < k → isMtlNewmtlLine ((splitLines text.data).getD j []) = false) :
    ParseMaterialFile text = none := by
  unfold ParseMaterialFile
  rw [runMtlLines_unbound_none (splitLines text.data) initMtlState k rfl rfl hk hp hn]
  rfl

/-- Witness for C8: a `Kd` line (preceded only by a comment and a blank
line) before any `newmtl` makes the whole parse throw. -/

theorem claim8_witness : ParseMaterialFile "# mtl\n\nKd 1 0 0\nnewmtl m" = none :=
  claim8_property_before_newmtl "# mtl\n\nKd 1 0 0\nnewmtl m" 2 (by decide) (by decide)
    (fun j hj => by
      interval_cases j <;> decide)

/-! ## Claim C6 -/

theorem vertexTable_width {st : ObjState} (hw : tablesWF st) :
    ∀ i ≤ 3, ∀ tup ∈ vertexTable st i, tup.length = tupWidth i := by
  obtain ⟨h0, h1, h2, h3⟩ := hw
  intro i hi tup htup
  interval_cases i
  · simpa [tupWidth] using h0 tup htup
  · simpa [tupWidth] using h1 tup htup
  · simpa [tupWidth] using h2 tup htup
  · simpa [tupWidth] using h3 tup htup

theorem listGetInt_mem {l : List α} {n : Int} {a : α} (h : listGetInt l n = some a) :
    a ∈ l := by
  unfold listGetInt at h
  split at h
  · have hlt : n.toNat < l.length := by
      by_contra hlen
      rw [List.getElem?_eq_none (Nat.le_of_not_lt hlen)] at h
      cases h
    rw [List.getElem?_eq_getElem hlt] at h
    cases h
    exact List.getElem_mem hlt
  · cases h

theorem dataWF_pushData (g : Geometry) (i : Nat) (tup : List JsNum)
    (hd : dataWF g.data) (ht : tup.length = tupWidth i) :
    dataWF (pushData g i tup).data := by
  obtain ⟨hp, hx, hn, hc⟩ := hd
  match i with
  | 0 =>
    refine ⟨?_, hx, hn, hc⟩
    have ht' : tup.length = 3 := by simpa [tupWidth] using ht
    simp only [pushData, List.length_append, ht']
    omega
  | 1 =>
    refine ⟨hp, ?_, hn, hc⟩
    have ht' : tup.length = 2 := by simpa [tupWidth] using ht
    simp only [pushData, List.length_append, ht']
    omega
  | 2 =>
    refine ⟨hp, hx, ?_, hc⟩
    have ht' : tup.length = 3 := by simpa [tupWidth] using ht
    simp only [pushData, List.length_append, ht']
    omega
  | n + 3 =>
    refine ⟨hp, hx, hn, ?_⟩
    have ht' : tup.length = 3 := by simpa [tupWidth] using ht
    simp only [pushData, List.length_append, ht']
    omega

theorem stateWF_pushTup {st st' : ObjState} {i : Nat} {tup : List JsNum}
    (h : pushTup st i tup = some st') (hw : stateWF st) (ht : tup.length = tupWidth i) :
    stateWF st' := by
  unfold pushTup at h
  cases hg : st.geometry with
  | none => rw [hg] at h; cases h
  | some g =>
    rw [hg] at h
    cases h
    obtain ⟨htab, hgs⟩ := hw
    refine ⟨htab, ?_⟩
    intro g' hg'
    simp only [allGeometries, Option.toList] at hg'
    rcases List.mem_append.1 hg' with hmem | hmem
    · exact hgs g' (by simp [allGeometries, hmem])
    · have hg'' : g' = pushData g i tup := by simpa using hmem
      subst hg''
      refine dataWF_pushData g i tup ?_ ht
      exact hgs g (by simp [allGeometries, hg])

theorem stateWF_addVertexSub {st st' : ObjState} {i : Nat} {s : List Char}
    (h : addVertexSub st i s = some st') (hw : stateWF st) : stateWF st' := by
  unfold addVertexSub at h
  by_cases hs : s = []
  · rw [if_pos hs] at h
    cases h
    exact hw
  · rw [if_neg hs] at h
    cases hpi : jsParseInt s with
    | none => simp only [hpi] at h; cases h
    | some n =>
      simp only [hpi] at h
      by_cases hi : i ≤ 3
      · rw [if_pos hi] at h
        cases hg : listGetInt (vertexTable st i)
            (n + if 0 ≤ n then 0 else ((vertexTable st i).length : Int)) with
        | none => simp only [hg] at h; cases h
        | some tup =>
          simp only [hg] at h
          have htw : tup.length = tupWidth i :=
            vertexTable_width hw.1 i hi tup (listGetInt_mem hg)
          cases hp : pushTup st i tup with
          | none => simp only [hp] at h; cases h
          | some st1 =>
            simp only [hp] at h
            have hw1 : stateWF st1 := stateWF_pushTup hp hw htw
            by_cases hcc : i = 0 ∧ 1 < st.objColors.length
            · rw [if_pos hcc] at h
              cases hcg : listGetInt st.objColors
                  (n + if 0 ≤ n then 0 else ((vertexTable st i).length : Int)) with
              | none => simp only [hcg] at h; cases h
              | some ctup =>
                simp only [hcg] at h
                have hct : ctup.length = tupWidth 3 := by
                  have := hw.1.2.2.2 ctup (listGetInt_mem hcg)
                  simpa [tupWidth] using this
                have hc1 : st1.objColors = st.objColors := (pushTup_some hp).2.2
                exact stateWF_pushTup h hw1 hct
            · rw [if_neg hcc] at h
              cases h
              exact hw1
      · rw [if_neg hi] at h
        by_cases h0 : 0 ≤ n
        · rw [if_pos h0] at h
          cases h
          exact hw
        · rw [if_neg h0] at h
          cases h

theorem stateWF_addVertexSubs : ∀ (ps : List (Nat × List Char)) (st st' : ObjState),
    addVertexSubs st ps = some st' → stateWF st → stateWF st'
  | [], st, st' => by
    intro h hw
    cases h
    exact hw
  | (i, s) :: rest, st, st' => by
    intro h hw
    cases hx : addVertexSub st i s with
    | none => simp only [addVertexSubs, hx] at h; cases h
    | some st1 =>
      simp only [addVertexSubs, hx] at h
      exact stateWF_addVertexSubs rest st1 st' h (stateWF_addVertexSub hx hw)

theorem stateWF_addVertex {st st' : ObjState} {vert : List Char}
    (h : addVertex st vert = some st') (hw : stateWF st) : stateWF st' :=
  stateWF_addVertexSubs _ st st' h hw

theorem stateWF_setGeometry {st : ObjState} (hw : stateWF st) : stateWF (setGeometry st) := by
  unfold setGeometry
  cases hg : st.geometry with
  | some g =>
    exact hw
  | none =>
    obtain ⟨htab, hgs⟩ := hw
    refine ⟨htab, ?_⟩
    intro g' hg'
    simp only [allGeometries, Option.toList] at hg'
    rcases List.mem_append.1 hg' with hmem | hmem
    · exact hgs g' (by simp [allGeometries, hmem])
    · have hg'' := by simpa using hmem
      subst hg''
      simp [dataWF]

theorem stateWF_newGeometry {st : ObjState} (hw : stateWF st) : stateWF (newGeometry st) := by
  obtain ⟨htab, hgs⟩ := hw
  constructor
  · unfold newGeometry
    cases hg : st.geometry with
    | none => exact htab
    | some g =>
      by_cases hp : g.data.position ≠ []
      · simp only [if_pos hp]
        exact htab
      · simp only [if_neg hp]
        exact htab
  · intro g' hg'
    rw [allGeometries_newGeometry] at hg'
    exact hgs g' hg'

theorem stateWF_faceTris (value : List (List Char)) :
    ∀ (ks : List Nat) (st st' : ObjState),
      faceTris value st ks = some st' → stateWF st → stateWF st'
  | [], st, st' => by
    intro h hw
    cases h
    exact hw
  | k :: ks, st, st' => by
    intro h hw
    cases h0 : addVertex st (value.getD 0 []) with
    | none => simp only [faceTris, h0] at h; cases h
    | some st1 =>
      simp only [faceTris, h0] at h
      cases h1 : addVertex st1 (value.getD (k + 1) []) with
      | none => simp only [h1] at h; cases h
      | some st2 =>
        simp only [h1] at h
        cases h2 : addVertex st2 (value.getD (k + 2) []) with
        | none => simp only [h2] at h; cases h
        | some st3 =>
          simp only [h2] at h
          exact stateWF_faceTris value ks st3 st' h
            (stateWF_addVertex h2 (stateWF_addVertex h1 (stateWF_addVertex h0 hw)))

theorem stateWF_processFace {st st' : ObjState} {value : List (List Char)}
    (h : processFace st value = some st') (hw : stateWF st) : stateWF st' :=
  stateWF_faceTris value _ _ _ h (stateWF_setGeometry hw)

theorem stateWF_handleV {st : ObjState} {value : List (List Char)} (hw : stateWF st)
    (hlen : value.length = 3 ∨ value.length = 6) : stateWF (handleV st value) := by
  obtain ⟨⟨h0, h1, h2, h3⟩, hgs⟩ := hw
  unfold handleV
  rcases hlen with h | h
  · rw [if_neg (by omega)]
    refine ⟨⟨?_, h1, h2, h3⟩, ?_⟩
    · intro t ht
      rcases List.mem_append.1 ht with hm | hm
      · exact h0 t hm
      · have he : t = value.map jsParseFloat := by simpa using hm
        subst he
        simp [List.length_map, h]
    · intro g hg
      exact hgs g hg
  · rw [if_pos (by omega)]
    refine ⟨⟨?_, h1, h2, ?_⟩, ?_⟩
    · intro t ht
      rcases List.mem_append.1 ht with hm | hm
      · exact h0 t hm
      · have he : t = (value.take 3).map jsParseFloat := by simpa using hm
        subst he
        simp only [List.length_map, List.length_take]
        omega
    · intro t ht
      rcases List.mem_append.1 ht with hm | hm
      · exact h3 t hm
      · have he : t = (value.drop 3).map jsParseFloat := by simpa using hm
        subst he
        simp only [List.length_map, List.length_drop]
        omega
    · intro g hg
      exact hgs g hg

theorem stateWF_handleVn {st : ObjState} {value : List (List Char)} (hw : stateWF st)
    (hlen : value.length = 3) : stateWF (handleVn st value) := by
  obtain ⟨⟨h0, h1, h2, h3⟩, hgs⟩ := hw
  unfold handleVn
  refine ⟨⟨h0, h1, ?_, h3⟩, ?_⟩
  · intro t ht
    rcases List.mem_append.1 ht with hm | hm
    · exact h2 t hm
    · have he : t = value.map jsParseFloat := by simpa using hm
      subst he
      simp [List.length_map, hlen]
  · intro g hg
    exact hgs g hg

theorem stateWF_handleVt {st : ObjState} {value : List (List Char)} (hw : stateWF st)
    (hlen : value.length = 2) : stateWF (handleVt st value) := by
  obtain ⟨⟨h0, h1, h2, h3⟩, hgs⟩ := hw
  unfold handleVt
  refine ⟨⟨h0, ?_, h2, h3⟩, ?_⟩
  · intro t ht
    rcases List.mem_append.1 ht with hm | hm
    · exact h1 t hm
    · have he : t = value.map jsParseFloat := by simpa using hm
      subst he
      simp [List.length_map, hlen]
  · intro g hg
    exact hgs g hg

theorem stateWF_processObjLine {st st' : ObjState} {l : List Char}
    (h : processObjLine st l = some st') (hwf : objLineWF l = true) (hw : stateWF st) :
    stateWF st' := by
  unfold processObjLine at h
  unfold objLineWF at hwf
  by_cases h1 : trimJS l = []
  · rw [if_pos h1] at h
    cases h
    exact hw
  · rw [if_neg h1] at h hwf
    by_cases h2 : (trimJS l).headD 'a' = '#'
    · rw [if_pos h2] at h
      cases h
      exact hw
    · rw [if_neg h2] at h hwf
      by_cases hv : (trimJS l).takeWhile isWordCharJS = "v".data
      · rw [if_pos hv] at h hwf
        cases h
        refine stateWF_handleV hw ?_
        simpa using hwf
      · rw [if_neg hv] at h hwf
        by_cases hvn : (trimJS l).takeWhile isWordCharJS = "vn".data
        · rw [if_pos hvn] at h hwf
          cases h
          exact stateWF_handleVn hw (by simpa using hwf)
        · rw [if_neg hvn] at h hwf
          by_cases hvt : (trimJS l).takeWhile isWordCharJS = "vt".data
          · rw [if_pos hvt] at h hwf
            cases h
            exact stateWF_handleVt hw (by simpa using hwf)
          · rw [if_neg hvt] at h
            by_cases hf : (trimJS l).takeWhile isWordCharJS = "f".data
            · rw [if_pos hf] at h
              exact stateWF_processFace h hw
            · rw [if_neg hf] at h
              by_cases hss : (trimJS l).takeWhile isWordCharJS = "s".data
              · rw [if_pos hss] at h
                cases h
                exact hw
              · rw [if_neg hss] at h
                by_cases hml : (trimJS l).takeWhile isWordCharJS = "mtllib".data
                · rw [if_pos hml] at h
                  cases h
                  exact hw
                · rw [if_neg hml] at h
                  by_cases hum : (trimJS l).takeWhile isWordCharJS = "usemtl".data
                  · rw [if_pos hum] at h
                    cases h
                    exact stateWF_newGeometry hw
                  · rw [if_neg hum] at h
                    by_cases hgk : (trimJS l).takeWhile isWordCharJS = "g".data
                    · rw [if_pos hgk] at h
                      cases h
                      exact stateWF_newGeometry hw
                    · rw [if_neg hgk] at h
                      by_cases hok : (trimJS l).takeWhile isWordCharJS = "o".data
                      · rw [if_pos hok] at h
                        cases h
                        exact stateWF_newGeometry hw
                      · rw [if_neg hok] at h
                        by_cases hsk : (trimJS l).takeWhile isWordCharJS ∈ protoSkipNames
                        · rw [if_pos hsk] at h
                          cases h
                          exact hw
                        · rw [if_neg hsk] at h
                          by_cases hth : (trimJS l).takeWhile isWordCharJS ∈ protoThrowNames
                          · rw [if_pos hth] at h
                            cases h
                          · rw [if_neg hth] at h
                            cases h
                            exact hw

theorem stateWF_runObjLines : ∀ (lines : List (List Char)) (st st' : ObjState),
    runObjLines st lines = some st' → (∀ l ∈ lines, objLineWF l = true) →
    stateWF st → stateWF st'
  | [], _, _ => by
    intro h _ hw
    cases h
    exact hw
  | l :: rest, st, st' => by
    intro h hwf hw
    cases hx : processObjLine st l with
    | none => simp only [runObjLines, hx] at h; cases h
    | some st1 =>
      simp only [runObjLines, hx] at h
      exact stateWF_runObjLines rest st1 st' h
        (fun l' hl' => hwf l' (List.mem_cons_of_mem _ hl'))
        (stateWF_processObjLine hx (hwf l (List.mem_cons_self _ _)) hw)

theorem pruneArr_eq_some {l a : List JsNum} (h : pruneArr l = some a) : a = l := by
  unfold pruneArr at h
  split at h
  · cases h
  · cases h
    rfl

/-- C6 (corrected): counterexample to the claim as stated.  On the OBJ text
`v 0 0 0 / vt 5 / f 1/1 1/1 1/1` the `vt` handler appends whatever tokens the
line carries - here a 1-tuple - so the returned geometry has a texcoord array
of 3 floats for its 3 emitted vertices (position array: 9 floats) instead of
the claimed fixed 2 components per vertex. -/

theorem claim6_counterexample :
    ((ParseObjFile "v 0 0 0\nvt 5\nf 1/1 1/1 1/1").map
        (fun r => r.geometries.map fun g =>
          ((g.data.texcoord.getD []).length, (g.data.position.getD []).length))) =
      some [(3, 9)] ∧
    (3 : Nat) % 2 ≠ 0 :=
  ⟨by decide, by decide⟩

/-- C6 (corrected), amended claim.  For OBJ texts whose attribute lines are
well-formed (`v` with exactly 3 or exactly 6 tokens, `vn` with 3, `vt` with
2 - this is what the counterexample forces), every geometry of a returned
result has flat attribute arrays of fixed per-vertex width: position, normal
and color hold a multiple of 3 components and texcoord a multiple of 2; and
every entry that ended up in the position/normal/color tables is a 3-tuple
while every texcoord-table entry is a 2-tuple. -/

theorem claim6_amended (text : String) (res : ObjResult)
    (hwf : ∀ l ∈ splitLines text.data, objLineWF l = true)
    (hres : ParseObjFile text = some res) :
    (∀ g ∈ res.geometries,
      (∀ a, g.data.position = some a → a.length % 3 = 0) ∧
      (∀ a, g.data.texcoord = some a → a.length % 2 = 0) ∧
      (∀ a, g.data.normal = some a → a.length % 3 = 0) ∧
      (∀ a, g.data.color = some a → a.length % 3 = 0)) ∧
    (∀ st, runObjLines initObjState (splitLines text.data) = some st →
      (∀ t ∈ st.objPositions, t.length = 3) ∧ (∀ t ∈ st.objTexcoords, t.length = 2) ∧
      (∀ t ∈ st.objNormals, t.length = 3) ∧ (∀ t ∈ st.objColors, t.length = 3)) := by
  unfold ParseObjFile at hres
  cases hrun : runObjLines initObjState (splitLines text.data) with
  | none => rw [hrun] at hres; cases hres
  | some st =>
    rw [hrun] at hres
    cases hres
    have hWF : stateWF st := stateWF_runObjLines _ _ _ hrun hwf (by decide)
    constructor
    · intro g hg
      obtain ⟨g0, hg0, rfl⟩ := List.mem_map.1 hg
      obtain ⟨hp, ht, hn, hc⟩ := hWF.2 g0 hg0
      refine ⟨?_, ?_, ?_, ?_⟩
      · intro a ha
        rw [pruneArr_eq_some ha]
        exact hp
      · intro a ha
        rw [pruneArr_eq_some ha]
        exact ht
      · intro a ha
        rw [pruneArr_eq_some ha]
        exact hn
      · intro a ha
        rw [pruneArr_eq_some ha]
        exact hc
    · intro st2 hst2
      cases hst2
      exact hWF.1

/-- Witness for C6's amended claim on the well-formed text
`v 1 2 3 4 5 6 / vt 0 1 / vn 0 0 1 / f 1/1/1 1/1/1 1/1/1`: the returned
geometry's four arrays have widths 3/2/3/3 per vertex. -/

theorem claim6_witness :
    (c6Geometry.data.position.getD []).length % 3 = 0 ∧
    (c6Geometry.data.texcoord.getD []).length % 2 = 0 ∧
    (c6Geometry.data.normal.getD []).length % 3 = 0 ∧
    (c6Geometry.data.color.getD []).length % 3 = 0 :=
  ⟨((claim6_amended "v 1 2 3 4 5 6\nvt 0 1\nvn 0 0 1\nf 1/1/1 1/1/1 1/1/1"
        { geometries := [c6Geometry], materialLibs := [] }
        (by decide) (by decide)).1 c6Geometry (by decide)).1 _ rfl,
   ((claim6_amended "v 1 2 3 4 5 6\nvt 0 1\nvn 0 0 1\nf 1/1/1 1/1/1 1/1/1"
        { geometries := [c6Geometry], materialLibs := [] }
        (by decide) (by decide)).1 c6Geometry (by decide)).2.1 _ rfl,
   ((claim6_amended "v 1 2 3 4 5 6\nvt 0 1\nvn 0 0 1\nf 1/1/1 1/1/1 1/1/1"
        { geometries := [c6Geometry], materialLibs := [] }
        (by decide) (by decide)).1 c6Geometry (by decide)).2.2.1 _ rfl,
   ((claim6_amended "v 1 2 3 4 5 6\nvt 0 1\nvn 0 0 1\nf 1/1/1 1/1/1 1/1/1"
        { geometries := [c6Geometry], materialLibs := [] }
        (by decide) (by decide)).1 c6Geometry (by decide)).2.2.2 _ rfl⟩

end ObjMtl
